import Mathlib

/-!
Verification of the ChargePal record reconciliation engine
(`src/services/utils.ts`, `recalculateRecords`) and the sync merge
coordinator (`src/services/storageService.ts`, `syncWithSupabase`).

JavaScript numbers are modelled as exact rationals extended with the
special values `NaN`, `Infinity` and `-Infinity` (`JSNum`).  The sign of
zero is conflated (the source never distinguishes `0` from `-0`:
every use is `=== 0`, truthiness, `Math.max(0,·)` or `toFixed`).
`toFixed(2)` followed by `parseFloat` is modelled as exact rounding to
2 decimal places with ties toward positive infinity, which is the
ECMAScript `toFixed` tie-breaking rule ("pick the larger n"); the
`toFixed` exponential-notation escape for magnitudes at or above 1e21
is idealised away.  ISO date strings are modelled by their epoch
timestamps (`Int`, milliseconds), which is how the source consumes
them (`new Date(s).getTime()`).
-/

/-- A JavaScript number: a finite rational or one of the special values. -/
inductive JSNum where
  | fin : ℚ → JSNum
  | nan : JSNum
  | inf : JSNum
  | ninf : JSNum
deriving DecidableEq, Repr

namespace JSNum

/-- JavaScript subtraction `a - b`. -/
def jsub : JSNum → JSNum → JSNum
  | fin p, fin q => fin (p - q)
  | nan, _ => nan
  | _, nan => nan
  | inf, inf => nan
  | inf, _ => inf
  | ninf, ninf => nan
  | ninf, _ => ninf
  | fin _, inf => ninf
  | fin _, ninf => inf

/-- JavaScript multiplication `a * b`. -/
def jmul : JSNum → JSNum → JSNum
  | fin p, fin q => fin (p * q)
  | nan, _ => nan
  | _, nan => nan
  | inf, inf => inf
  | inf, ninf => ninf
  | ninf, inf => ninf
  | ninf, ninf => inf
  | inf, fin q => if 0 < q then inf else if q < 0 then ninf else nan
  | fin q, inf => if 0 < q then inf else if q < 0 then ninf else nan
  | ninf, fin q => if 0 < q then ninf else if q < 0 then inf else nan
  | fin q, ninf => if 0 < q then ninf else if q < 0 then inf else nan

/-- JavaScript division `a / b` (division by zero yields a signed
infinity, `0/0` yields `NaN`; signed zeros are conflated). -/
def jdiv : JSNum → JSNum → JSNum
  | fin p, fin q =>
      if q = 0 then (if 0 < p then inf else if p < 0 then ninf else nan)
      else fin (p / q)
  | nan, _ => nan
  | _, nan => nan
  | fin _, inf => fin 0
  | fin _, ninf => fin 0
  | inf, fin q => if 0 ≤ q then inf else ninf
  | ninf, fin q => if 0 ≤ q then ninf else inf
  | inf, inf => nan
  | inf, ninf => nan
  | ninf, inf => nan
  | ninf, ninf => nan

/-- JavaScript strict comparison `b < a` / `a > b` (false whenever `NaN`
is involved). -/
def jgt : JSNum → JSNum → Bool
  | fin p, fin q => decide (q < p)
  | fin _, nan => false
  | fin _, inf => false
  | fin _, ninf => true
  | nan, _ => false
  | inf, fin _ => true
  | inf, nan => false
  | inf, inf => false
  | inf, ninf => true
  | ninf, _ => false

/-- JavaScript comparison `a >= b` (false whenever `NaN` is involved). -/
def jge : JSNum → JSNum → Bool
  | fin p, fin q => decide (q ≤ p)
  | fin _, nan => false
  | fin _, inf => false
  | fin _, ninf => true
  | nan, _ => false
  | inf, nan => false
  | inf, _ => true
  | ninf, ninf => true
  | ninf, _ => false

/-- `Math.max(0, a)`. -/
def jmax0 : JSNum → JSNum
  | fin q => fin (max 0 q)
  | nan => nan
  | inf => inf
  | ninf => fin 0

/-- JavaScript `isNaN`. -/
def jsNaN : JSNum → Bool
  | nan => true
  | _ => false

/-- JavaScript boolean coercion of a number (`0`, `-0` and `NaN` are
falsy). -/
def jsTruthy : JSNum → Bool
  | fin q => decide (q ≠ 0)
  | nan => false
  | inf => true
  | ninf => true

/-- Is the number a finite value? -/
def isFinite : JSNum → Bool
  | fin _ => true
  | _ => false

end JSNum

/-- Rounding of a rational to 2 decimal places, ties toward `+∞`,
as performed by `parseFloat(x.toFixed(2))` on finite values. -/
def round2Q (q : ℚ) : ℚ := ((⌊q * 100 + 1/2⌋ : ℤ) : ℚ) / 100

/-- `parseFloat(x.toFixed(2))`: rounds finite values to 2 decimal
places; `NaN` and the infinities round-trip through their string
forms unchanged. -/
def round2 : JSNum → JSNum
  | JSNum.fin q => JSNum.fin (round2Q q)
  | x => x

/-- Charging type (`'Fast' | 'Slow'`, `src/types`). -/
inductive ChargingType where
  | slow
  | fast
deriving DecidableEq, Repr

/-- A vehicle (`Vehicle`, `src/types`).  `updatedAt` is the epoch-millis
mutation timestamp used by sync. -/
structure Vehicle where
  id : String
  name : String
  batteryCapacity : JSNum
  licensePlate : Option String
  initialOdometer : Option JSNum
  updatedAt : Option Int
deriving DecidableEq, Repr

/-- A charging record (`ChargingRecord`, `src/types`).  `startTime` and
`endTime` are the epoch timestamps of the corresponding ISO strings;
the five trailing `Option JSNum` fields are the derived analytics
fields recomputed by the reconciliation engine. -/
structure ChargingRecord where
  id : String
  vehicleId : String
  odometer : JSNum
  startTime : Int
  endTime : Option Int
  startSoC : JSNum
  endSoC : JSNum
  pricePerKwh : JSNum
  type : ChargingType
  energyCharged : JSNum
  totalCost : JSNum
  temperature : Option JSNum
  location : Option String
  durationMinutes : Option JSNum
  theoreticalEnergy : Option JSNum
  efficiencyLossPct : Option JSNum
  distanceDriven : Option JSNum
  energyConsumption : Option JSNum
  createdAt : Int
  updatedAt : Int
deriving DecidableEq, Repr

/-- `calculateDuration` (utils.ts): minutes between two instants,
rounded half-up and clamped at zero. -/
def calculateDuration (start finish : Int) : Int :=
  max 0 ⌊((finish - start : ℤ) : ℚ) / 60000 + 1/2⌋

/-- `calculateTheoreticalEnergy` (utils.ts):
`round2(capacity * (endSoC - startSoC) / 100)`. -/
def calculateTheoreticalEnergy (capacity startSoC endSoC : JSNum) : JSNum :=
  round2 (JSNum.jdiv (JSNum.jmul capacity (JSNum.jsub endSoC startSoC)) (JSNum.fin 100))

/-- The total-cost repair step of `recalculateRecords` (utils.ts,
step 1): a missing (`NaN`) or zero total cost is recomputed from
`energyCharged * pricePerKwh` when both are positive; otherwise the
existing value is rounded to 2 decimal places. -/
def costRepair (current : ChargingRecord) : JSNum :=
  if (current.totalCost = JSNum.nan ∨ current.totalCost = JSNum.fin 0) ∧
      JSNum.jgt current.energyCharged (JSNum.fin 0) ∧
      JSNum.jgt current.pricePerKwh (JSNum.fin 0) then
    round2 (JSNum.jmul current.energyCharged current.pricePerKwh)
  else
    round2 current.totalCost

/-- One loop body of `recalculateRecords` (utils.ts): recompute the
derived fields of `current` given the immediately preceding record of
the sorted per-vehicle timeline (`none` for the first record). -/
def processRecord (capacity : JSNum) (prev : Option ChargingRecord)
    (current : ChargingRecord) : ChargingRecord :=
  let totalCost := costRepair current
  let durationMinutes :=
    match current.endTime with
    | some e => some (JSNum.fin ((calculateDuration current.startTime e : ℤ) : ℚ))
    | none => current.durationMinutes
  let theoPair :=
    if JSNum.jgt capacity (JSNum.fin 0) ∧ JSNum.jge current.endSoC current.startSoC then
      let te := calculateTheoreticalEnergy capacity current.startSoC current.endSoC
      let loss :=
        if JSNum.jgt current.energyCharged (JSNum.fin 0) then
          round2 (JSNum.jmul
            (JSNum.jdiv (JSNum.jsub current.energyCharged te) current.energyCharged)
            (JSNum.fin 100))
        else JSNum.fin 0
      (some te, some loss)
    else (current.theoreticalEnergy, current.efficiencyLossPct)
  let distPair :=
    match prev with
    | some p =>
      let distanceDriven := JSNum.jmax0 (JSNum.jsub current.odometer p.odometer)
      let socUsed := JSNum.jsub p.endSoC current.startSoC
      let energyConsumption :=
        if JSNum.jgt distanceDriven (JSNum.fin 0) ∧ JSNum.jgt socUsed (JSNum.fin 0) ∧
            JSNum.jgt capacity (JSNum.fin 0) then
          round2 (JSNum.jmul
            (JSNum.jdiv (JSNum.jdiv (JSNum.jmul capacity socUsed) (JSNum.fin 100))
              distanceDriven)
            (JSNum.fin 100))
        else JSNum.fin 0
      (distanceDriven, energyConsumption)
    | none => (JSNum.fin 0, JSNum.fin 0)
  { current with
    totalCost := totalCost
    durationMinutes := durationMinutes
    theoreticalEnergy := theoPair.1
    efficiencyLossPct := theoPair.2
    distanceDriven := some distPair.1
    energyConsumption := some distPair.2 }

/-- The inner loop of `recalculateRecords` over one sorted vehicle
timeline, threading the previous (input) record. -/
def processGroup (capacity : JSNum) :
    Option ChargingRecord → List ChargingRecord → List ChargingRecord
  | _, [] => []
  | prev, current :: rest =>
      processRecord capacity prev current :: processGroup capacity (some current) rest

/-- Comparison used to sort a vehicle timeline: ascending `startTime`
(`new Date(a.startTime).getTime() - new Date(b.startTime).getTime()`). -/
def recLE (a b : ChargingRecord) : Prop := a.startTime ≤ b.startTime

instance : DecidableRel recLE := fun a b =>
  inferInstanceAs (Decidable (a.startTime ≤ b.startTime))

instance : IsTotal ChargingRecord recLE := ⟨fun a b => Int.le_total a.startTime b.startTime⟩

instance : IsTrans ChargingRecord recLE := ⟨fun _ _ _ h h2 => le_trans h h2⟩

/-- The stable ascending sort of a vehicle timeline by `startTime`
(JavaScript `Array.prototype.sort` is stable). -/
def sortRecords (l : List ChargingRecord) : List ChargingRecord :=
  List.insertionSort recLE l

/-- First-occurrence deduplication, the iteration order of the keys of
the `vehicleGroups` object built by `records.forEach` in
`recalculateRecords`. -/
def dedupF (l : List String) : List String :=
  l.foldl (fun acc a => if a ∈ acc then acc else acc ++ [a]) []

/-- The distinct vehicle ids of a record list, in first-occurrence
order. -/
def groupKeys (records : List ChargingRecord) : List String :=
  dedupF (records.map (·.vehicleId))

/-- The per-vehicle group: the records of one vehicle in input order. -/
def groupOf (records : List ChargingRecord) (vehicleId : String) : List ChargingRecord :=
  records.filter (fun r => decide (r.vehicleId = vehicleId))

/-- `vehicle?.batteryCapacity || 0`: the capacity used for a vehicle
group; a missing vehicle or a falsy capacity (`0`, `NaN`) degrades
to `0`. -/
def capacityFor (vehicles : List Vehicle) (vehicleId : String) : JSNum :=
  match vehicles.find? (fun v => decide (v.id = vehicleId)) with
  | some v => if JSNum.jsTruthy v.batteryCapacity then v.batteryCapacity else JSNum.fin 0
  | none => JSNum.fin 0

/-- `recalculateRecords` (utils.ts): the reconciliation engine.
Group the records by vehicle, sort each group by start time, and
recompute every derived field along the timeline. -/
def recalculateRecords (records : List ChargingRecord) (vehicles : List Vehicle) :
    List ChargingRecord :=
  (groupKeys records).flatMap (fun vehicleId =>
    processGroup (capacityFor vehicles vehicleId) none
      (sortRecords (groupOf records vehicleId)))

/-- A convenient baseline record for concrete instances. -/
def baseRec : ChargingRecord where
  id := "r1"
  vehicleId := "v1"
  odometer := JSNum.fin 1000
  startTime := 0
  endTime := none
  startSoC := JSNum.fin 20
  endSoC := JSNum.fin 80
  pricePerKwh := JSNum.fin (3/2)
  type := ChargingType.fast
  energyCharged := JSNum.fin 40
  totalCost := JSNum.fin 60
  temperature := none
  location := none
  durationMinutes := none
  theoreticalEnergy := none
  efficiencyLossPct := none
  distanceDriven := none
  energyConsumption := none
  createdAt := 0
  updatedAt := 0


/-- The projection of a charging record onto its non-derived fields:
identity, raw inputs and bookkeeping timestamps.  `recalculateRecords`
rewrites everything outside this projection and nothing inside it. -/
structure RecordCore where
  id : String
  vehicleId : String
  odometer : JSNum
  startTime : Int
  endTime : Option Int
  startSoC : JSNum
  endSoC : JSNum
  pricePerKwh : JSNum
  type : ChargingType
  energyCharged : JSNum
  temperature : Option JSNum
  location : Option String
  createdAt : Int
  updatedAt : Int
deriving DecidableEq, Repr

/-- Strip a record to its non-derived fields. -/
def recBase (r : ChargingRecord) : RecordCore where
  id := r.id
  vehicleId := r.vehicleId
  odometer := r.odometer
  startTime := r.startTime
  endTime := r.endTime
  startSoC := r.startSoC
  endSoC := r.endSoC
  pricePerKwh := r.pricePerKwh
  type := r.type
  energyCharged := r.energyCharged
  temperature := r.temperature
  location := r.location
  createdAt := r.createdAt
  updatedAt := r.updatedAt

/-- The user profile (`UserProfile`, `src/types`). -/
structure UserProfile where
  name : String
  onboarded : Bool
  theme : String
deriving DecidableEq, Repr

/-- The sync configuration (`SupabaseConfig`, `src/types`). -/
structure SupabaseConfig where
  projectUrl : String
  apiKey : String
deriving DecidableEq, Repr

/-- The application state passed to `syncWithSupabase`
(`AppState`, `src/types`, plus the deletion queues present in
`DEFAULT_STATE`). -/
structure AppState where
  user : UserProfile
  vehicles : List Vehicle
  records : List ChargingRecord
  deletedRecordIds : List String
  deletedVehicleIds : List String
deriving DecidableEq, Repr

/-- A vehicle row pulled from the remote `vehicles` table
(key `licensePlate`). -/
structure CloudVehicle where
  licensePlate : String
  name : String
  batteryCapacity : JSNum
  initialOdometer : JSNum
  updatedAt : Int
deriving DecidableEq, Repr

/-- A record row pulled from the remote `charging_records` table
(key `id`, foreign key `licensePlate`). -/
structure CloudRecord where
  id : String
  licensePlate : String
  odometer : JSNum
  startTime : Int
  endTime : Option Int
  startSoC : JSNum
  endSoC : JSNum
  pricePerKwh : JSNum
  type : ChargingType
  energyCharged : JSNum
  totalCost : JSNum
  location : Option String
  temperature : Option JSNum
  createdAt : Int
  updatedAt : Int
deriving DecidableEq, Repr

/-- The replacement state fragment carried by a successful sync. -/
structure SyncData where
  vehicles : List Vehicle
  records : List ChargingRecord
  deletedRecordIds : List String
  deletedVehicleIds : List String
deriving DecidableEq, Repr

/-- The result of `syncWithSupabase`:
`{ success: boolean; message: string; data?: Partial<AppState> }`. -/
structure SyncResult where
  success : Bool
  message : String
  data : Option SyncData
deriving DecidableEq, Repr

/-- One remote-store invocation issued during a sync, in issue order. -/
inductive RemoteCall where
  | deleteRecords
  | upsertUser
  | selectVehiclesMeta
  | upsertVehicles
  | selectRecordsMeta
  | upsertRecords
  | selectVehicles
  | selectRecords
deriving DecidableEq, Repr

/-- The behaviour of the remote store during one sync: the outcome of
each operation the coordinator may issue, plus the supply of fresh
local ids consumed by `generateId` during the merge. -/
structure RemoteEnv where
  deleteRecordsRes : Except String Unit
  upsertUserRes : Except String Unit
  vehiclesMetaRes : Except String (List (String × Int))
  upsertVehiclesRes : Except String Unit
  recordsMetaRes : Except String (List (String × Int))
  upsertRecordsRes : Except String Unit
  cloudVehiclesRes : Except String (List CloudVehicle)
  cloudRecordsRes : Except String (List CloudRecord)
  fresh : Nat → String

/-- `Map` lookup for a map built from an association list with
later-inserted keys overwriting earlier ones (JavaScript
`new Map(entries).get(k)`). -/
def lookupLast {α : Type} (entries : List (String × α)) (k : String) : Option α :=
  ((entries.filter (fun p => decide (p.1 = k))).getLast?).map (·.2)

/-- A failure result of `syncWithSupabase`: the thrown step message is
surfaced and no state fragment is returned. -/
def syncFailure (message : String) : SyncResult :=
  { success := false, message := message, data := none }

/-- The merged vehicle produced from one remote vehicle row and the
chosen local id (storageService.ts, step 3.1). -/
def mergedVehicle (cv : CloudVehicle) (vehicleId : String) : Vehicle where
  id := vehicleId
  name := cv.name
  batteryCapacity := cv.batteryCapacity
  licensePlate := some cv.licensePlate
  initialOdometer := some cv.initialOdometer
  updatedAt := some cv.updatedAt

/-- Step 3.1 of `syncWithSupabase`: rebuild the vehicle list from the
remote rows, reusing the local id of a vehicle with the same plate
and minting a fresh id otherwise; also build the plate-to-local-id
map used for record re-parenting, and count the consumed fresh ids. -/
def mergeVehiclesGo (localPairs : List (String × Vehicle)) (fresh : Nat → String) :
    List Vehicle × List (String × String) × Nat → List CloudVehicle →
    List Vehicle × List (String × String) × Nat
  | acc, [] => acc
  | acc, cv :: rest =>
    match lookupLast localPairs cv.licensePlate with
    | some lv =>
        mergeVehiclesGo localPairs fresh
          (acc.1 ++ [mergedVehicle cv lv.id], acc.2.1 ++ [(cv.licensePlate, lv.id)], acc.2.2)
          rest
    | none =>
        mergeVehiclesGo localPairs fresh
          (acc.1 ++ [mergedVehicle cv (fresh acc.2.2)],
           acc.2.1 ++ [(cv.licensePlate, fresh acc.2.2)], acc.2.2 + 1)
          rest

def mergeVehicles (localVehicles : List Vehicle) (cloudVehicles : List CloudVehicle)
    (fresh : Nat → String) : List Vehicle × List (String × String) × Nat :=
  mergeVehiclesGo (localVehicles.map (fun v => (v.licensePlate.getD "", v))) fresh
    ([], [], 0) cloudVehicles

/-- Step 3.2 of `syncWithSupabase`: convert one remote record row into
a local record owned by the mapped local vehicle id.  The derived
fields are deliberately not populated (left for recomputation). -/
def mergedRecord (cr : CloudRecord) (vehicleId : String) : ChargingRecord where
  id := cr.id
  vehicleId := vehicleId
  odometer := cr.odometer
  startTime := cr.startTime
  endTime := cr.endTime
  startSoC := cr.startSoC
  endSoC := cr.endSoC
  pricePerKwh := cr.pricePerKwh
  type := cr.type
  energyCharged := cr.energyCharged
  totalCost := cr.totalCost
  temperature := cr.temperature
  location := match cr.location with
    | some s => if s = "" then none else some s
    | none => none
  durationMinutes := none
  theoreticalEnergy := none
  efficiencyLossPct := none
  distanceDriven := none
  energyConsumption := none
  createdAt := cr.createdAt
  updatedAt := cr.updatedAt

/-- Step 3.2 of `syncWithSupabase`: remote record rows whose plate has
no vehicle in the merged set are silently dropped. -/
def mergeRecords (plateMap : List (String × String)) (cloudRecords : List CloudRecord) :
    List ChargingRecord :=
  cloudRecords.filterMap (fun cr =>
    match lookupLast plateMap cr.licensePlate with
    | some vehicleId => some (mergedRecord cr vehicleId)
    | none => none)

/-- JavaScript `String.prototype.trim`: strip whitespace from both
ends. -/
def jsTrim (s : String) : String :=
  String.mk (((s.data.dropWhile Char.isWhitespace).reverse.dropWhile
    Char.isWhitespace).reverse)

/-- Is this vehicle blocked from sync (`!v.licensePlate ||
v.licensePlate.trim() === ''`)? -/
def missingPlate (v : Vehicle) : Bool :=
  decide (jsTrim (v.licensePlate.getD "") = "")

/-- Step 1.2 of `syncWithSupabase`: the local vehicles to upload —
those with a plate whose cloud row is missing (or has a falsy
timestamp) or whose local `updatedAt` is strictly newer. -/
def vehiclesToPush (meta : List (String × Int)) (vehicles : List Vehicle) : List Vehicle :=
  vehicles.filter (fun v =>
    match v.licensePlate with
    | none => false
    | some p =>
      let cloudTime :=
        match lookupLast meta p with
        | some t => JSNum.fin (t : ℚ)
        | none => JSNum.nan
      !(JSNum.jsTruthy cloudTime) ||
        JSNum.jgt (JSNum.fin ((v.updatedAt.getD 0 : ℤ) : ℚ)) cloudTime)

/-- Step 1.3 of `syncWithSupabase`: the local records to upload, by
the same last-write-wins rule keyed on record `id`. -/
def recordsToPush (meta : List (String × Int)) (records : List ChargingRecord) :
    List ChargingRecord :=
  records.filter (fun r =>
    let cloudTime :=
      match lookupLast meta r.id with
      | some t => JSNum.fin (t : ℚ)
      | none => JSNum.nan
    !(JSNum.jsTruthy cloudTime) ||
      JSNum.jgt (JSNum.fin ((r.updatedAt : ℤ) : ℚ)) cloudTime)

/-- Step 1.3 of `syncWithSupabase`: the record upload payload —
records whose owning vehicle is missing or has a falsy plate are
dropped (represented here by the pushed record ids). -/
def recordPayload (vehicles : List Vehicle) (toPush : List ChargingRecord) : List String :=
  toPush.filterMap (fun r =>
    match vehicles.find? (fun v => decide (v.id = r.vehicleId)) with
    | none => none
    | some v => if v.licensePlate.getD "" = "" then none else some r.id)

/-- `syncWithSupabase` (storageService.ts): precondition checks, push
(deletions, user, vehicles, records), pull, merge, recompute.  The
remote store is abstracted by `env`; the second component of the
result is the trace of remote invocations, in order. -/
def syncWithSupabase (config : SupabaseConfig) (localState : AppState) (env : RemoteEnv) :
    SyncResult × List RemoteCall :=
  if config.apiKey = "" ∨ config.projectUrl = "" then
    (syncFailure "配置缺失", [])
  else
    let vehiclesWithoutPlate := localState.vehicles.filter missingPlate
    if 0 < vehiclesWithoutPlate.length then
      (syncFailure ("同步失败：存在 " ++ toString vehiclesWithoutPlate.length ++
        " 辆车未填写车牌号码。云端同步需要车牌作为唯一识别。"), [])
    else
      let calls0 := if 0 < localState.deletedRecordIds.length then [RemoteCall.deleteRecords] else []
      match (if 0 < localState.deletedRecordIds.length then env.deleteRecordsRes
          else Except.ok ()) with
      | Except.error e => (syncFailure ("同步删除记录失败: " ++ e), calls0)
      | Except.ok _ =>
        let calls1 := calls0 ++ [RemoteCall.upsertUser]
        match env.upsertUserRes with
        | Except.error e => (syncFailure ("用户同步失败: " ++ e), calls1)
        | Except.ok _ =>
          let calls2 := calls1 ++ [RemoteCall.selectVehiclesMeta]
          match env.vehiclesMetaRes with
          | Except.error e => (syncFailure ("检查车辆版本失败: " ++ e), calls2)
          | Except.ok cloudVehiclesMeta =>
            let calls3 := calls2 ++
              (if 0 < (vehiclesToPush cloudVehiclesMeta localState.vehicles).length then
                [RemoteCall.upsertVehicles] else [])
            match (if 0 < (vehiclesToPush cloudVehiclesMeta localState.vehicles).length then
                env.upsertVehiclesRes else Except.ok ()) with
            | Except.error e => (syncFailure ("车辆上传失败: " ++ e), calls3)
            | Except.ok _ =>
              let calls4 := calls3 ++ [RemoteCall.selectRecordsMeta]
              match env.recordsMetaRes with
              | Except.error e => (syncFailure ("检查记录版本失败: " ++ e), calls4)
              | Except.ok cloudRecordsMeta =>
                let calls5 := calls4 ++
                  (if 0 < (recordPayload localState.vehicles
                      (recordsToPush cloudRecordsMeta localState.records)).length then
                    [RemoteCall.upsertRecords] else [])
                match (if 0 < (recordPayload localState.vehicles
                    (recordsToPush cloudRecordsMeta localState.records)).length then
                    env.upsertRecordsRes else Except.ok ()) with
                | Except.error e => (syncFailure ("记录上传失败: " ++ e), calls5)
                | Except.ok _ =>
                  let calls6 := calls5 ++ [RemoteCall.selectVehicles]
                  match env.cloudVehiclesRes with
                  | Except.error e => (syncFailure ("拉取车辆失败: " ++ e), calls6)
                  | Except.ok cloudVehicles =>
                    let calls7 := calls6 ++ [RemoteCall.selectRecords]
                    match env.cloudRecordsRes with
                    | Except.error e => (syncFailure ("拉取记录失败: " ++ e), calls7)
                    | Except.ok cloudRecords =>
                      let mv := mergeVehicles localState.vehicles cloudVehicles env.fresh
                      let mergedRecords := mergeRecords mv.2.1 cloudRecords
                      let finalRecords := recalculateRecords mergedRecords mv.1
                      ({ success := true
                         message := "同步成功 (已双向合并)"
                         data := some
                           { vehicles := mv.1
                             records := finalRecords
                             deletedRecordIds := []
                             deletedVehicleIds := [] } }, calls7)

/-- Strict comparison of records by start time, used to show that a
timeline with pairwise-distinct start times has a unique sorted
order. -/
def recLT (a b : ChargingRecord) : Prop := a.startTime < b.startTime

instance : IsAntisymm ChargingRecord recLT :=
  ⟨fun a _ h1 h2 => absurd (lt_trans h1 h2) (lt_irrefl a.startTime)⟩

/-- Is an optional derived field absent or finite? -/
def finOpt : Option JSNum → Bool
  | none => true
  | some x => x.isFinite

/-- Are all numeric fields of a record finite (absent optional fields
allowed)? -/
def recFinite (c : ChargingRecord) : Bool :=
  c.odometer.isFinite && c.startSoC.isFinite && c.endSoC.isFinite &&
  c.pricePerKwh.isFinite && c.energyCharged.isFinite && c.totalCost.isFinite &&
  finOpt c.durationMinutes && finOpt c.theoreticalEnergy && finOpt c.efficiencyLossPct &&
  finOpt c.distanceDriven && finOpt c.energyConsumption

/-- The value-level form of the cost repair: repair from `t` (total
cost), `e` (energy charged) and `p` (price per kWh). -/
def costRepairV (t e p : JSNum) : JSNum :=
  if (t = JSNum.nan ∨ t = JSNum.fin 0) ∧
      JSNum.jgt e (JSNum.fin 0) ∧ JSNum.jgt p (JSNum.fin 0) then
    round2 (JSNum.jmul e p)
  else
    round2 t

/-- A record is cost-stable when its total cost cannot round to `0.00`
while being neither `0` nor `NaN` and while the repair inputs are
positive.  A record violating this has its total cost rounded down to
`0` by a first reconciliation pass and then repaired to
`round2(energyCharged * pricePerKwh)` by a second pass. -/
def costOK (c : ChargingRecord) : Prop :=
  JSNum.jgt c.energyCharged (JSNum.fin 0) → JSNum.jgt c.pricePerKwh (JSNum.fin 0) →
    round2 c.totalCost = JSNum.fin 0 →
    (c.totalCost = JSNum.fin 0 ∨ c.totalCost = JSNum.nan)

/-- A vehicle with plate `"ABC123"` and 60 kWh capacity. -/
def vehV1 : Vehicle where
  id := "v1"
  name := "Car"
  batteryCapacity := JSNum.fin 60
  licensePlate := some "ABC123"
  initialOdometer := some (JSNum.fin 0)
  updatedAt := some 0

/-- A vehicle without a license plate, named `"AA"`. -/
def vehNoPlateA : Vehicle where
  id := "x1"
  name := "AA"
  batteryCapacity := JSNum.fin 60
  licensePlate := none
  initialOdometer := none
  updatedAt := some 0

/-- The same plate-less vehicle but named `"BB"`. -/
def vehNoPlateB : Vehicle where
  id := "x1"
  name := "BB"
  batteryCapacity := JSNum.fin 60
  licensePlate := none
  initialOdometer := none
  updatedAt := some 0

/-- A record whose total cost `0.004` rounds to `0.00`. -/
def cexRecC1 : ChargingRecord := { baseRec with totalCost := JSNum.fin (1/250) }

/-- A record with a zero total cost to be repaired. -/
def cexRecC2 : ChargingRecord := { baseRec with totalCost := JSNum.fin 0 }

/-- A record with a negative (finite, non-positive) total cost. -/
def cexRecC2n : ChargingRecord := { baseRec with totalCost := JSNum.fin (-5) }

/-- A record with a `NaN` total cost and zero energy charged. -/
def cexRecC3 : ChargingRecord :=
  { baseRec with totalCost := JSNum.nan, energyCharged := JSNum.fin 0 }

/-- Record `"a"`: odometer 100. -/
def recA : ChargingRecord := { baseRec with id := "a", odometer := JSNum.fin 100 }

/-- Record `"b"`: odometer 200, same `startTime` as `"a"`. -/
def recB : ChargingRecord :=
  { baseRec with id := "b", odometer := JSNum.fin 200, startSoC := JSNum.fin 30 }

/-- Record `"b"` at a later, distinct `startTime`. -/
def recBt1 : ChargingRecord :=
  { baseRec with id := "b", odometer := JSNum.fin 200, startTime := 1 }

/-- A user profile. -/
def userP : UserProfile where
  name := "u"
  onboarded := true
  theme := "system"

/-- A valid sync configuration. -/
def cfgOk : SupabaseConfig where
  projectUrl := "https://example.supabase.co"
  apiKey := "key"

/-- A remote store that answers every call successfully with empty
tables. -/
def envOk : RemoteEnv where
  deleteRecordsRes := Except.ok ()
  upsertUserRes := Except.ok ()
  vehiclesMetaRes := Except.ok []
  upsertVehiclesRes := Except.ok ()
  recordsMetaRes := Except.ok []
  upsertRecordsRes := Except.ok ()
  cloudVehiclesRes := Except.ok []
  cloudRecordsRes := Except.ok []
  fresh := fun n => "fresh" ++ toString n

/-- A local state containing the plate-less vehicle named `"AA"`. -/
def stNoPlateA : AppState where
  user := userP
  vehicles := [vehNoPlateA]
  records := []
  deletedRecordIds := []
  deletedVehicleIds := []

/-- A local state containing the plate-less vehicle named `"BB"`. -/
def stNoPlateB : AppState where
  user := userP
  vehicles := [vehNoPlateB]
  records := []
  deletedRecordIds := []
  deletedVehicleIds := []

/-- A local state containing the plated vehicle `vehV1`. -/
def stPlated : AppState where
  user := userP
  vehicles := [vehV1]
  records := []
  deletedRecordIds := []
  deletedVehicleIds := []

/-- A remote vehicle row with the same plate as `vehV1`. -/
def cloudV1 : CloudVehicle where
  licensePlate := "ABC123"
  name := "Car"
  batteryCapacity := JSNum.fin 60
  initialOdometer := JSNum.fin 0
  updatedAt := 5

/-- The successful remote store whose vehicle pull returns `cloudV1`. -/
def envCloud : RemoteEnv := { envOk with cloudVehiclesRes := Except.ok [cloudV1] }

theorem round2Q_idem (q : ℚ) : round2Q (round2Q q) = round2Q q := by
  unfold round2Q
  rw [div_mul_cancel₀ _ (by norm_num : (100:ℚ) ≠ 0), Int.floor_int_add,
    (by norm_num : ⌊(1/2 : ℚ)⌋ = (0:ℤ))]
  simp

theorem round2_round2 (x : JSNum) : round2 (round2 x) = round2 x := by
  cases x <;> simp [round2, round2Q_idem]

theorem round2_eq_nan {x : JSNum} : round2 x = JSNum.nan ↔ x = JSNum.nan := by
  cases x <;> simp [round2]

@[simp] theorem recBase_processRecord (capacity : JSNum) (prev : Option ChargingRecord)
    (current : ChargingRecord) :
    recBase (processRecord capacity prev current) = recBase current := rfl

@[simp] theorem processRecord_vehicleId (capacity : JSNum) (prev : Option ChargingRecord)
    (current : ChargingRecord) :
    (processRecord capacity prev current).vehicleId = current.vehicleId := rfl

@[simp] theorem processRecord_startTime (capacity : JSNum) (prev : Option ChargingRecord)
    (current : ChargingRecord) :
    (processRecord capacity prev current).startTime = current.startTime := rfl

@[simp] theorem processRecord_odometer (capacity : JSNum) (prev : Option ChargingRecord)
    (current : ChargingRecord) :
    (processRecord capacity prev current).odometer = current.odometer := rfl

@[simp] theorem processRecord_endSoC (capacity : JSNum) (prev : Option ChargingRecord)
    (current : ChargingRecord) :
    (processRecord capacity prev current).endSoC = current.endSoC := rfl

theorem processRecord_totalCost (capacity : JSNum) (prev : Option ChargingRecord)
    (current : ChargingRecord) :
    (processRecord capacity prev current).totalCost = costRepair current := rfl

theorem map_vehicleId_processGroup (capacity : JSNum) :
    ∀ (prev : Option ChargingRecord) (g : List ChargingRecord),
    (processGroup capacity prev g).map (·.vehicleId) = g.map (·.vehicleId)
  | _, [] => rfl
  | prev, a :: t => by
    simp [processGroup, map_vehicleId_processGroup capacity (some a) t]

theorem map_startTime_processGroup (capacity : JSNum) :
    ∀ (prev : Option ChargingRecord) (g : List ChargingRecord),
    (processGroup capacity prev g).map (·.startTime) = g.map (·.startTime)
  | _, [] => rfl
  | prev, a :: t => by
    simp [processGroup, map_startTime_processGroup capacity (some a) t]

theorem map_recBase_processGroup (capacity : JSNum) :
    ∀ (prev : Option ChargingRecord) (g : List ChargingRecord),
    (processGroup capacity prev g).map recBase = g.map recBase
  | _, [] => rfl
  | prev, a :: t => by
    simp [processGroup, map_recBase_processGroup capacity (some a) t]

theorem length_processGroup (capacity : JSNum) :
    ∀ (prev : Option ChargingRecord) (g : List ChargingRecord),
    (processGroup capacity prev g).length = g.length
  | _, [] => rfl
  | prev, a :: t => by
    simp [processGroup, length_processGroup capacity (some a) t]

theorem mem_processGroup {capacity : JSNum} {r : ChargingRecord} :
    ∀ {prev : Option ChargingRecord} {g : List ChargingRecord},
    r ∈ processGroup capacity prev g →
    ∃ x ∈ g, ∃ q, r = processRecord capacity q x ∧ (q = prev ∨ ∃ y ∈ g, q = some y) := by
  intro prev g
  induction g generalizing prev with
  | nil => simp [processGroup]
  | cons a t ih =>
    intro hr
    rcases List.mem_cons.mp hr with h | h
    · exact ⟨a, List.mem_cons_self a t, prev, h, Or.inl rfl⟩
    · obtain ⟨x, hx, q, hq, hqp⟩ := ih h
      refine ⟨x, List.mem_cons_of_mem a hx, q, hq, ?_⟩
      rcases hqp with h2 | ⟨y, hy, h2⟩
      · exact Or.inr ⟨a, List.mem_cons_self a t, h2⟩
      · exact Or.inr ⟨y, List.mem_cons_of_mem a hy, h2⟩

theorem mem_foldl_dedup (l : List String) :
    ∀ (acc : List String) (x : String),
    (x ∈ l.foldl (fun acc a => if a ∈ acc then acc else acc ++ [a]) acc) ↔
      x ∈ acc ∨ x ∈ l := by
  induction l with
  | nil => simp
  | cons a t ih =>
    intro acc x
    simp only [List.foldl_cons]
    by_cases h : a ∈ acc
    · rw [if_pos h, ih]
      constructor
      · rintro (hx | hx)
        · exact Or.inl hx
        · exact Or.inr (List.mem_cons_of_mem a hx)
      · rintro (hx | hx)
        · exact Or.inl hx
        · rcases List.mem_cons.mp hx with rfl | hx
          · exact Or.inl h
          · exact Or.inr hx
    · rw [if_neg h, ih]
      simp only [List.mem_append, List.mem_singleton, List.mem_cons]
      tauto

theorem nodup_foldl_dedup (l : List String) :
    ∀ (acc : List String), acc.Nodup →
    (l.foldl (fun acc a => if a ∈ acc then acc else acc ++ [a]) acc).Nodup := by
  induction l with
  | nil => exact fun _ h => h
  | cons a t ih =>
    intro acc hacc
    simp only [List.foldl_cons]
    by_cases h : a ∈ acc
    · rw [if_pos h]; exact ih acc hacc
    · rw [if_neg h]
      refine ih (acc ++ [a]) ?_
      simp [List.nodup_append, hacc, h]

theorem mem_groupKeys {rs : List ChargingRecord} {k : String} :
    k ∈ groupKeys rs ↔ k ∈ rs.map (·.vehicleId) := by
  unfold groupKeys dedupF
  rw [mem_foldl_dedup]
  simp

theorem groupKeys_nodup (rs : List ChargingRecord) : (groupKeys rs).Nodup :=
  nodup_foldl_dedup _ [] List.nodup_nil

theorem groupOf_sub {rs : List ChargingRecord} {k : String} {r : ChargingRecord}
    (h : r ∈ groupOf rs k) : r ∈ rs ∧ r.vehicleId = k := by
  unfold groupOf at h
  have := List.mem_filter.mp h
  simpa using this

theorem mem_sortRecords {l : List ChargingRecord} {r : ChargingRecord} :
    r ∈ sortRecords l ↔ r ∈ l :=
  (List.perm_insertionSort recLE l).mem_iff

theorem mem_recalculateRecords {R : List ChargingRecord} {V : List Vehicle}
    {r : ChargingRecord} (h : r ∈ recalculateRecords R V) :
    ∃ c ∈ R, ∃ q, r = processRecord (capacityFor V c.vehicleId) q c ∧
      (q = none ∨ ∃ y ∈ R, q = some y) := by
  unfold recalculateRecords at h
  obtain ⟨k, hk, hr⟩ := List.mem_flatMap.mp h
  obtain ⟨x, hx, q, hq, hqp⟩ := mem_processGroup hr
  obtain ⟨hxR, hxk⟩ := groupOf_sub (mem_sortRecords.mp hx)
  subst hxk
  refine ⟨x, hxR, q, hq, ?_⟩
  rcases hqp with h2 | ⟨y, hy, h2⟩
  · exact Or.inl h2
  · exact Or.inr ⟨y, (groupOf_sub (mem_sortRecords.mp hy)).1, h2⟩

@[simp] theorem processRecord_endTime (capacity : JSNum) (prev : Option ChargingRecord)
    (current : ChargingRecord) :
    (processRecord capacity prev current).endTime = current.endTime := rfl

@[simp] theorem processRecord_startSoC (capacity : JSNum) (prev : Option ChargingRecord)
    (current : ChargingRecord) :
    (processRecord capacity prev current).startSoC = current.startSoC := rfl

@[simp] theorem processRecord_energyCharged (capacity : JSNum) (prev : Option ChargingRecord)
    (current : ChargingRecord) :
    (processRecord capacity prev current).energyCharged = current.energyCharged := rfl

@[simp] theorem processRecord_pricePerKwh (capacity : JSNum) (prev : Option ChargingRecord)
    (current : ChargingRecord) :
    (processRecord capacity prev current).pricePerKwh = current.pricePerKwh := rfl

theorem processRecord_durationMinutes (capacity : JSNum) (prev : Option ChargingRecord)
    (current : ChargingRecord) :
    (processRecord capacity prev current).durationMinutes =
      match current.endTime with
      | some e => some (JSNum.fin ((calculateDuration current.startTime e : ℤ) : ℚ))
      | none => current.durationMinutes := by
  cases h : current.endTime <;> simp [processRecord, h]

theorem processRecord_theoreticalEnergy (capacity : JSNum) (prev : Option ChargingRecord)
    (current : ChargingRecord) :
    (processRecord capacity prev current).theoreticalEnergy =
      if JSNum.jgt capacity (JSNum.fin 0) ∧ JSNum.jge current.endSoC current.startSoC then
        some (calculateTheoreticalEnergy capacity current.startSoC current.endSoC)
      else current.theoreticalEnergy := by
  by_cases h : JSNum.jgt capacity (JSNum.fin 0) ∧ JSNum.jge current.endSoC current.startSoC <;>
    simp [processRecord, h]

theorem processRecord_efficiencyLossPct (capacity : JSNum) (prev : Option ChargingRecord)
    (current : ChargingRecord) :
    (processRecord capacity prev current).efficiencyLossPct =
      if JSNum.jgt capacity (JSNum.fin 0) ∧ JSNum.jge current.endSoC current.startSoC then
        some (if JSNum.jgt current.energyCharged (JSNum.fin 0) then
          round2 (JSNum.jmul
            (JSNum.jdiv (JSNum.jsub current.energyCharged
              (calculateTheoreticalEnergy capacity current.startSoC current.endSoC))
              current.energyCharged)
            (JSNum.fin 100))
        else JSNum.fin 0)
      else current.efficiencyLossPct := by
  by_cases h : JSNum.jgt capacity (JSNum.fin 0) ∧ JSNum.jge current.endSoC current.startSoC <;>
    simp [processRecord, h]

theorem processRecord_distanceDriven (capacity : JSNum) (prev : Option ChargingRecord)
    (current : ChargingRecord) :
    (processRecord capacity prev current).distanceDriven =
      match prev with
      | some p => some (JSNum.jmax0 (JSNum.jsub current.odometer p.odometer))
      | none => some (JSNum.fin 0) := by
  cases prev <;> simp [processRecord]

theorem processRecord_energyConsumption (capacity : JSNum) (prev : Option ChargingRecord)
    (current : ChargingRecord) :
    (processRecord capacity prev current).energyConsumption =
      match prev with
      | some p =>
        some (if JSNum.jgt (JSNum.jmax0 (JSNum.jsub current.odometer p.odometer)) (JSNum.fin 0) ∧
            JSNum.jgt (JSNum.jsub p.endSoC current.startSoC) (JSNum.fin 0) ∧
            JSNum.jgt capacity (JSNum.fin 0) then
          round2 (JSNum.jmul
            (JSNum.jdiv
              (JSNum.jdiv (JSNum.jmul capacity (JSNum.jsub p.endSoC current.startSoC))
                (JSNum.fin 100))
              (JSNum.jmax0 (JSNum.jsub current.odometer p.odometer)))
            (JSNum.fin 100))
        else JSNum.fin 0)
      | none => some (JSNum.fin 0) := by
  cases prev <;> simp [processRecord]

theorem eq_of_recBase_derived {a b : ChargingRecord}
    (hb : recBase a = recBase b)
    (h1 : a.totalCost = b.totalCost)
    (h2 : a.durationMinutes = b.durationMinutes)
    (h3 : a.theoreticalEnergy = b.theoreticalEnergy)
    (h4 : a.efficiencyLossPct = b.efficiencyLossPct)
    (h5 : a.distanceDriven = b.distanceDriven)
    (h6 : a.energyConsumption = b.energyConsumption) : a = b := by
  cases a; cases b
  simp only [recBase, RecordCore.mk.injEq] at hb
  simp_all [ChargingRecord.mk.injEq]

theorem costRepairV_stable (t e p : JSNum)
    (hc : JSNum.jgt e (JSNum.fin 0) → JSNum.jgt p (JSNum.fin 0) →
      round2 t = JSNum.fin 0 → (t = JSNum.fin 0 ∨ t = JSNum.nan)) :
    costRepairV (costRepairV t e p) e p = costRepairV t e p := by
  unfold costRepairV
  by_cases h1 : (t = JSNum.nan ∨ t = JSNum.fin 0) ∧
      JSNum.jgt e (JSNum.fin 0) ∧ JSNum.jgt p (JSNum.fin 0)
  · rw [if_pos h1]
    by_cases h2 : (round2 (JSNum.jmul e p) = JSNum.nan ∨
        round2 (JSNum.jmul e p) = JSNum.fin 0) ∧
        JSNum.jgt e (JSNum.fin 0) ∧ JSNum.jgt p (JSNum.fin 0)
    · rw [if_pos h2]
    · rw [if_neg h2, round2_round2]
  · rw [if_neg h1]
    have h2 : ¬((round2 t = JSNum.nan ∨ round2 t = JSNum.fin 0) ∧
        JSNum.jgt e (JSNum.fin 0) ∧ JSNum.jgt p (JSNum.fin 0)) := by
      rintro ⟨hz, he, hp⟩
      rcases hz with hz | hz
      · exact h1 ⟨Or.inl (round2_eq_nan.mp hz), he, hp⟩
      · rcases hc he hp hz with h3 | h3
        · exact h1 ⟨Or.inr h3, he, hp⟩
        · exact h1 ⟨Or.inl h3, he, hp⟩
    rw [if_neg h2, round2_round2]

theorem costRepair_processRecord (capacity : JSNum) (prev : Option ChargingRecord)
    (c : ChargingRecord) (hc : costOK c) :
    costRepair (processRecord capacity prev c) = costRepair c := by
  have e1 : costRepair (processRecord capacity prev c) =
      costRepairV (costRepairV c.totalCost c.energyCharged c.pricePerKwh)
        c.energyCharged c.pricePerKwh := rfl
  have e2 : costRepair c = costRepairV c.totalCost c.energyCharged c.pricePerKwh := rfl
  rw [e1, e2]
  exact costRepairV_stable c.totalCost c.energyCharged c.pricePerKwh hc

theorem processRecord_stable (capacity : JSNum) (prev prev' : Option ChargingRecord)
    (c : ChargingRecord)
    (hodo : prev'.map (·.odometer) = prev.map (·.odometer))
    (hsoc : prev'.map (·.endSoC) = prev.map (·.endSoC))
    (hc : costOK c) :
    processRecord capacity prev' (processRecord capacity prev c) =
      processRecord capacity prev c := by
  apply eq_of_recBase_derived
  · simp
  · rw [processRecord_totalCost, processRecord_totalCost,
      costRepair_processRecord capacity prev c hc]
  · rw [processRecord_durationMinutes, processRecord_durationMinutes]
    cases h : c.endTime <;> simp [h, processRecord_durationMinutes]
  · rw [processRecord_theoreticalEnergy, processRecord_theoreticalEnergy]
    by_cases h : JSNum.jgt capacity (JSNum.fin 0) ∧ JSNum.jge c.endSoC c.startSoC <;>
      simp [h, processRecord_theoreticalEnergy]
  · rw [processRecord_efficiencyLossPct, processRecord_efficiencyLossPct]
    by_cases h : JSNum.jgt capacity (JSNum.fin 0) ∧ JSNum.jge c.endSoC c.startSoC <;>
      simp [h, processRecord_efficiencyLossPct]
  · rw [processRecord_distanceDriven, processRecord_distanceDriven]
    cases prev with
    | none =>
      cases prev' with
      | none => rfl
      | some x => simp [Option.map] at hodo
    | some p =>
      cases prev' with
      | none => simp [Option.map] at hodo
      | some p2 =>
        simp only [Option.map, Option.some.injEq] at hodo
        simp [hodo]
  · rw [processRecord_energyConsumption, processRecord_energyConsumption]
    cases prev with
    | none =>
      cases prev' with
      | none => rfl
      | some x => simp [Option.map] at hodo
    | some p =>
      cases prev' with
      | none => simp [Option.map] at hodo
      | some p2 =>
        simp only [Option.map, Option.some.injEq] at hodo hsoc
        simp [hodo, hsoc]

theorem processGroup_stable (capacity : JSNum) :
    ∀ (g : List ChargingRecord) (prev prev' : Option ChargingRecord),
    prev'.map (·.odometer) = prev.map (·.odometer) →
    prev'.map (·.endSoC) = prev.map (·.endSoC) →
    (∀ x ∈ g, costOK x) →
    processGroup capacity prev' (processGroup capacity prev g) = processGroup capacity prev g
  | [], _, _, _, _, _ => rfl
  | c :: t, prev, prev', hodo, hsoc, hok => by
    simp only [processGroup]
    rw [processRecord_stable capacity prev prev' c hodo hsoc (hok c (List.mem_cons_self c t)),
      processGroup_stable capacity t (some c) (some (processRecord capacity prev c))
        (by simp) (by simp) (fun x hx => hok x (List.mem_cons_of_mem c hx))]

theorem flatMap_congr_mem {α β : Type} {l : List α} {f g : α → List β}
    (h : ∀ a ∈ l, f a = g a) : l.flatMap f = l.flatMap g := by
  induction l with
  | nil => rfl
  | cons a t ih =>
    simp only [List.flatMap_cons]
    rw [h a (List.mem_cons_self a t), ih (fun x hx => h x (List.mem_cons_of_mem a hx))]

theorem flatMap_eq_nil_of {α β : Type} {l : List α} {f : α → List β}
    (h : ∀ a ∈ l, f a = []) : l.flatMap f = [] := by
  induction l with
  | nil => rfl
  | cons a t ih =>
    simp [List.flatMap_cons, h a (List.mem_cons_self a t),
      ih (fun x hx => h x (List.mem_cons_of_mem a hx))]

theorem vehicleId_of_mem_processGroup {capacity : JSNum} {prev : Option ChargingRecord}
    {g : List ChargingRecord} {r : ChargingRecord} (h : r ∈ processGroup capacity prev g) :
    r.vehicleId ∈ g.map (·.vehicleId) := by
  have h2 : r.vehicleId ∈ (processGroup capacity prev g).map (·.vehicleId) :=
    List.mem_map_of_mem _ h
  rwa [map_vehicleId_processGroup] at h2

theorem vid_of_mem_block {rs : List ChargingRecord} {j : String} {capacity : JSNum}
    {prev : Option ChargingRecord} {r : ChargingRecord}
    (h : r ∈ processGroup capacity prev (sortRecords (groupOf rs j))) : r.vehicleId = j := by
  obtain ⟨x, hx, hxe⟩ := List.mem_map.mp (vehicleId_of_mem_processGroup h)
  rw [← hxe]
  exact (groupOf_sub (mem_sortRecords.mp hx)).2

theorem groupOf_block_self (rs : List ChargingRecord) (j : String) (capacity : JSNum) :
    groupOf (processGroup capacity none (sortRecords (groupOf rs j))) j =
      processGroup capacity none (sortRecords (groupOf rs j)) := by
  unfold groupOf
  rw [List.filter_eq_self]
  intro r hr
  simp [vid_of_mem_block hr]

theorem groupOf_block_other {rs : List ChargingRecord} {j k : String} (hjk : j ≠ k)
    (capacity : JSNum) :
    groupOf (processGroup capacity none (sortRecords (groupOf rs j))) k = [] := by
  unfold groupOf
  rw [List.filter_eq_nil_iff]
  intro r hr
  simp [vid_of_mem_block hr, hjk]

theorem flatMap_eq_single {ks : List String} (hn : ks.Nodup) (f : String → List ChargingRecord)
    (k : String) (hf : ∀ j ∈ ks, j ≠ k → f j = []) :
    ks.flatMap f = if k ∈ ks then f k else [] := by
  induction ks with
  | nil => simp
  | cons j t ih =>
    rcases List.nodup_cons.mp hn with ⟨hjt, hnd⟩
    by_cases hjk : j = k
    · subst hjk
      have hrest : t.flatMap f = [] :=
        flatMap_eq_nil_of (fun x hx => hf x (List.mem_cons_of_mem j hx)
          (fun hxj => hjt (hxj ▸ hx)))
      simp [List.flatMap_cons, hrest]
    · rw [List.flatMap_cons, hf j (List.mem_cons_self j t) hjk]
      rw [List.nil_append]
      rw [ih hnd (fun x hx hxk => hf x (List.mem_cons_of_mem j hx) hxk)]
      simp [List.mem_cons, Ne.symm hjk]

theorem groupOf_recalculate (R : List ChargingRecord) (V : List Vehicle) (k : String) :
    groupOf (recalculateRecords R V) k =
      if k ∈ groupKeys R then
        processGroup (capacityFor V k) none (sortRecords (groupOf R k))
      else [] := by
  have h1 : groupOf (recalculateRecords R V) k =
      (groupKeys R).flatMap (fun j =>
        groupOf (processGroup (capacityFor V j) none (sortRecords (groupOf R j))) k) := by
    unfold recalculateRecords groupOf
    rw [List.filter_flatMap]
  rw [h1, flatMap_eq_single (groupKeys_nodup R) _ k
    (fun j _ hjk => groupOf_block_other hjk _)]
  by_cases hk : k ∈ groupKeys R
  · rw [if_pos hk, if_pos hk, groupOf_block_self]
  · rw [if_neg hk, if_neg hk]

theorem map_vid_block (rs : List ChargingRecord) (j : String) (capacity : JSNum) :
    (processGroup capacity none (sortRecords (groupOf rs j))).map (·.vehicleId) =
      List.replicate (groupOf rs j).length j := by
  rw [map_vehicleId_processGroup, List.eq_replicate_iff]
  constructor
  · rw [List.length_map]
    exact (List.perm_insertionSort recLE _).length_eq
  · intro b hb
    obtain ⟨x, hx, rfl⟩ := List.mem_map.mp hb
    exact (groupOf_sub (mem_sortRecords.mp hx)).2

theorem foldl_dedup_replicate_mem (j : String) :
    ∀ (m : Nat) (acc : List String), j ∈ acc →
    (List.replicate m j).foldl (fun acc a => if a ∈ acc then acc else acc ++ [a]) acc = acc
  | 0, _, _ => rfl
  | m + 1, acc, h => by
    simp only [List.replicate_succ, List.foldl_cons, if_pos h]
    exact foldl_dedup_replicate_mem j m acc h

theorem foldl_dedup_replicate (j : String) (m : Nat) (hm : 0 < m) (acc : List String)
    (h : j ∉ acc) :
    (List.replicate m j).foldl (fun acc a => if a ∈ acc then acc else acc ++ [a]) acc =
      acc ++ [j] := by
  cases m with
  | zero => simp at hm
  | succ m =>
    simp only [List.replicate_succ, List.foldl_cons, if_neg h]
    exact foldl_dedup_replicate_mem j m (acc ++ [j]) (by simp)

theorem foldl_dedup_blocks (ks : List String) :
    ∀ (acc : List String) (n : String → Nat),
    ks.Nodup → (∀ j ∈ ks, 0 < n j) → (∀ j ∈ ks, j ∉ acc) →
    (ks.flatMap (fun j => List.replicate (n j) j)).foldl
      (fun acc a => if a ∈ acc then acc else acc ++ [a]) acc = acc ++ ks := by
  induction ks with
  | nil =>
    intro acc n _ _ _
    simp
  | cons j t ih =>
    intro acc n hnd hpos hacc
    rcases List.nodup_cons.mp hnd with ⟨hjt, hnd2⟩
    rw [List.flatMap_cons, List.foldl_append,
      foldl_dedup_replicate j (n j) (hpos j (List.mem_cons_self j t)) acc
        (hacc j (List.mem_cons_self j t)),
      ih (acc ++ [j]) n hnd2 (fun x hx => hpos x (List.mem_cons_of_mem j hx)) ?_]
    · simp
    · intro x hx
      simp only [List.mem_append, List.mem_singleton]
      rintro (h | h)
      · exact hacc x (List.mem_cons_of_mem j hx) h
      · exact hjt (h ▸ hx)

theorem groupOf_length_pos {R : List ChargingRecord} {j : String} (h : j ∈ groupKeys R) :
    0 < (groupOf R j).length := by
  rw [mem_groupKeys] at h
  obtain ⟨r, hr, rfl⟩ := List.mem_map.mp h
  have hmem : r ∈ groupOf R r.vehicleId := List.mem_filter.mpr ⟨hr, by simp⟩
  exact List.length_pos.mpr (List.ne_nil_of_mem hmem)

theorem groupKeys_recalculate (R : List ChargingRecord) (V : List Vehicle) :
    groupKeys (recalculateRecords R V) = groupKeys R := by
  have h1 : (recalculateRecords R V).map (·.vehicleId) =
      (groupKeys R).flatMap (fun j => List.replicate (groupOf R j).length j) := by
    unfold recalculateRecords
    rw [List.map_flatMap]
    exact flatMap_congr_mem (fun j _ => map_vid_block R j _)
  show dedupF ((recalculateRecords R V).map (·.vehicleId)) = groupKeys R
  rw [h1]
  unfold dedupF
  rw [foldl_dedup_blocks (groupKeys R) [] _ (groupKeys_nodup R)
    (fun j hj => groupOf_length_pos hj) (by simp)]
  simp

theorem sorted_sortRecords (l : List ChargingRecord) : List.Sorted recLE (sortRecords l) :=
  List.sorted_insertionSort recLE l

theorem sortRecords_eq_of_sorted {l : List ChargingRecord} (h : List.Sorted recLE l) :
    sortRecords l = l :=
  List.Sorted.insertionSort_eq h

theorem sorted_processGroup (capacity : JSNum) (prev : Option ChargingRecord)
    (g : List ChargingRecord) (hs : List.Sorted recLE g) :
    List.Sorted recLE (processGroup capacity prev g) := by
  have h1 : List.Pairwise (fun a b : ℤ => a ≤ b) (g.map (·.startTime)) :=
    List.Pairwise.map (fun r : ChargingRecord => r.startTime) (fun _ _ h => h) hs
  have h2 : List.Pairwise (fun a b : ℤ => a ≤ b)
      ((processGroup capacity prev g).map (·.startTime)) := by
    rw [map_startTime_processGroup]
    exact h1
  exact List.Pairwise.of_map (fun r : ChargingRecord => r.startTime) (fun _ _ h => h) h2

theorem recalculateRecords_idem (R : List ChargingRecord) (V : List Vehicle)
    (hok : ∀ r ∈ R, costOK r) :
    recalculateRecords (recalculateRecords R V) V = recalculateRecords R V := by
  have hgrp : ∀ k ∈ groupKeys R,
      processGroup (capacityFor V k) none
        (sortRecords (groupOf (recalculateRecords R V) k)) =
      processGroup (capacityFor V k) none (sortRecords (groupOf R k)) := by
    intro k hk
    rw [groupOf_recalculate, if_pos hk,
      sortRecords_eq_of_sorted (sorted_processGroup _ _ _ (sorted_sortRecords _))]
    exact processGroup_stable (capacityFor V k) _ none none rfl rfl
      (fun x hx => hok x (groupOf_sub (mem_sortRecords.mp hx)).1)
  calc recalculateRecords (recalculateRecords R V) V
      = (groupKeys (recalculateRecords R V)).flatMap (fun k =>
          processGroup (capacityFor V k) none
            (sortRecords (groupOf (recalculateRecords R V) k))) := rfl
    _ = (groupKeys R).flatMap (fun k =>
          processGroup (capacityFor V k) none
            (sortRecords (groupOf (recalculateRecords R V) k))) := by
          rw [groupKeys_recalculate]
    _ = (groupKeys R).flatMap (fun k =>
          processGroup (capacityFor V k) none (sortRecords (groupOf R k))) :=
          flatMap_congr_mem hgrp
    _ = recalculateRecords R V := rfl

theorem flatMap_groupOf_perm :
    ∀ (ks : List String) (rs : List ChargingRecord), ks.Nodup →
    (∀ r ∈ rs, r.vehicleId ∈ ks) →
    (ks.flatMap (fun k => groupOf rs k)).Perm rs := by
  intro ks
  induction ks with
  | nil =>
    intro rs _ hcov
    have hnil : rs = [] := by
      cases rs with
      | nil => rfl
      | cons a t => exact absurd (hcov a (List.mem_cons_self a t)) (List.not_mem_nil _)
    simp [hnil]
  | cons k t ih =>
    intro rs hnd hcov
    rcases List.nodup_cons.mp hnd with ⟨hkt, hnd2⟩
    rw [List.flatMap_cons]
    have hcong : ∀ j ∈ t, groupOf rs j =
        groupOf (rs.filter (fun r => !(decide (r.vehicleId = k)))) j := by
      intro j hj
      have hjk : j ≠ k := fun h => hkt (h ▸ hj)
      unfold groupOf
      rw [List.filter_filter]
      apply List.filter_congr
      intro x _
      by_cases hxj : x.vehicleId = j
      · have hxk : x.vehicleId ≠ k := fun h => hjk (by rw [← hxj, h])
        simp [hxj, hxk, hjk]
      · simp [hxj]
    have hrest : (t.flatMap (fun j => groupOf rs j)).Perm
        (rs.filter (fun r => !(decide (r.vehicleId = k)))) := by
      rw [flatMap_congr_mem hcong]
      apply ih _ hnd2
      intro r hr
      rcases List.mem_filter.mp hr with ⟨hrs, hneq⟩
      have := hcov r hrs
      rcases List.mem_cons.mp this with h | h
      · simp [h] at hneq
      · exact h
    exact (List.Perm.append_left _ hrest).trans (List.filter_append_perm _ rs)

theorem recalculate_base_perm (R : List ChargingRecord) (V : List Vehicle) :
    ((recalculateRecords R V).map recBase).Perm (R.map recBase) := by
  have h1 : (recalculateRecords R V).map recBase =
      (groupKeys R).flatMap (fun k => (sortRecords (groupOf R k)).map recBase) := by
    unfold recalculateRecords
    rw [List.map_flatMap]
    exact flatMap_congr_mem (fun k _ => map_recBase_processGroup _ none _)
  rw [h1]
  have h2 : ((groupKeys R).flatMap (fun k => (sortRecords (groupOf R k)).map recBase)).Perm
      ((groupKeys R).flatMap (fun k => (groupOf R k).map recBase)) :=
    List.Perm.flatMap_left _ (fun k _ => (List.perm_insertionSort recLE _).map recBase)
  refine h2.trans ?_
  have h3 : (groupKeys R).flatMap (fun k => (groupOf R k).map recBase) =
      ((groupKeys R).flatMap (fun k => groupOf R k)).map recBase := by
    rw [List.map_flatMap]
  rw [h3]
  exact (flatMap_groupOf_perm (groupKeys R) R (groupKeys_nodup R)
    (fun r hr => mem_groupKeys.mpr (List.mem_map_of_mem _ hr))).map recBase

theorem sorted_recLT_of_nodup {l : List ChargingRecord} (hs : List.Sorted recLE l)
    (hnd : (l.map (·.startTime)).Nodup) : List.Sorted recLT l := by
  have hne : List.Pairwise (fun a b : ChargingRecord => a.startTime ≠ b.startTime) l :=
    List.Pairwise.of_map (fun r : ChargingRecord => r.startTime) (fun _ _ h => h) hnd
  have hand := List.Pairwise.and hs hne
  exact hand.imp (fun h => lt_of_le_of_ne h.1 h.2)

theorem sortRecords_eq_of_perm {l1 l2 : List ChargingRecord} (hp : l1.Perm l2)
    (hnd : (l2.map (·.startTime)).Nodup) : sortRecords l1 = sortRecords l2 := by
  have hperm : (sortRecords l1).Perm (sortRecords l2) :=
    (List.perm_insertionSort recLE l1).trans (hp.trans (List.perm_insertionSort recLE l2).symm)
  have e1 : ((sortRecords l1).map (·.startTime)).Perm (l2.map (·.startTime)) :=
    ((List.perm_insertionSort recLE l1).map (·.startTime)).trans (hp.map (·.startTime))
  have e2 : ((sortRecords l2).map (·.startTime)).Perm (l2.map (·.startTime)) :=
    (List.perm_insertionSort recLE l2).map (·.startTime)
  have hnd1 : ((sortRecords l1).map (·.startTime)).Nodup := e1.nodup_iff.mpr hnd
  have hnd2 : ((sortRecords l2).map (·.startTime)).Nodup := e2.nodup_iff.mpr hnd
  exact List.eq_of_perm_of_sorted hperm
    (sorted_recLT_of_nodup (sorted_sortRecords l1) hnd1)
    (sorted_recLT_of_nodup (sorted_sortRecords l2) hnd2)

theorem recalculate_perm (R R2 : List ChargingRecord) (V : List Vehicle)
    (hp : R2.Perm R)
    (hnd : ∀ k, ((groupOf R k).map (·.startTime)).Nodup) :
    (recalculateRecords R2 V).Perm (recalculateRecords R V) := by
  have hkeys : (groupKeys R2).Perm (groupKeys R) := by
    rw [List.perm_ext_iff_of_nodup (groupKeys_nodup R2) (groupKeys_nodup R)]
    intro k
    rw [mem_groupKeys, mem_groupKeys]
    exact (hp.map (·.vehicleId)).mem_iff
  have hgrp : ∀ k, sortRecords (groupOf R2 k) = sortRecords (groupOf R k) := by
    intro k
    exact sortRecords_eq_of_perm (hp.filter _) (hnd k)
  have h1 : recalculateRecords R2 V =
      (groupKeys R2).flatMap (fun k =>
        processGroup (capacityFor V k) none (sortRecords (groupOf R k))) := by
    unfold recalculateRecords
    exact flatMap_congr_mem (fun k _ => by rw [hgrp k])
  rw [h1]
  exact hkeys.flatMap_right _

theorem isFinite_round2 (x : JSNum) : (round2 x).isFinite = x.isFinite := by
  cases x <;> simp [round2, JSNum.isFinite]

theorem isFinite_jsub {a b : JSNum} (ha : a.isFinite = true) (hb : b.isFinite = true) :
    (JSNum.jsub a b).isFinite = true := by
  cases a <;> cases b <;> simp_all [JSNum.jsub, JSNum.isFinite]

theorem isFinite_jmul {a b : JSNum} (ha : a.isFinite = true) (hb : b.isFinite = true) :
    (JSNum.jmul a b).isFinite = true := by
  cases a <;> cases b <;> simp_all [JSNum.jmul, JSNum.isFinite]

theorem isFinite_jdiv {a b : JSNum} (ha : a.isFinite = true) (hb : b.isFinite = true)
    (hb0 : b ≠ JSNum.fin 0) : (JSNum.jdiv a b).isFinite = true := by
  cases a <;> cases b <;> simp_all [JSNum.jdiv, JSNum.isFinite]

theorem isFinite_jmax0 {a : JSNum} (ha : a.isFinite = true) :
    (JSNum.jmax0 a).isFinite = true := by
  cases a <;> simp_all [JSNum.jmax0, JSNum.isFinite]

theorem jgt_ne_zero {x : JSNum} (h : JSNum.jgt x (JSNum.fin 0) = true) : x ≠ JSNum.fin 0 := by
  cases x with
  | fin p =>
    simp only [JSNum.jgt, decide_eq_true_eq] at h
    simp only [ne_eq, JSNum.fin.injEq]
    exact ne_of_gt h
  | nan => simp [JSNum.jgt] at h
  | inf => simp
  | ninf => simp [JSNum.jgt] at h

theorem capacityFor_finite {V : List Vehicle}
    (hV : ∀ v ∈ V, v.batteryCapacity.isFinite = true) (k : String) :
    (capacityFor V k).isFinite = true := by
  unfold capacityFor
  cases hf : V.find? (fun v => decide (v.id = k)) with
  | none => simp [JSNum.isFinite]
  | some v =>
    have hv := hV v (List.mem_of_find?_eq_some hf)
    show (if JSNum.jsTruthy v.batteryCapacity then v.batteryCapacity else JSNum.fin 0).isFinite
      = true
    by_cases ht : JSNum.jsTruthy v.batteryCapacity
    · rw [if_pos ht]; exact hv
    · rw [if_neg ht]; simp [JSNum.isFinite]

theorem isFinite_calcTheo {cap s e : JSNum} (hc : cap.isFinite = true)
    (hs : s.isFinite = true) (he : e.isFinite = true) :
    (calculateTheoreticalEnergy cap s e).isFinite = true := by
  unfold calculateTheoreticalEnergy
  rw [isFinite_round2]
  exact isFinite_jdiv (isFinite_jmul hc (isFinite_jsub he hs))
    (by simp [JSNum.isFinite]) (by simp)

theorem processRecord_finite (capacity : JSNum) (prev : Option ChargingRecord)
    (c : ChargingRecord) (hcap : capacity.isFinite = true) (hc : recFinite c = true)
    (hprev : ∀ p, prev = some p → p.odometer.isFinite = true ∧ p.endSoC.isFinite = true) :
    recFinite (processRecord capacity prev c) = true := by
  simp only [recFinite, Bool.and_eq_true] at hc
  obtain ⟨⟨⟨⟨⟨⟨⟨⟨⟨⟨hodo, hsoc1⟩, hsoc2⟩, hprice⟩, henergy⟩, htc⟩, hdur⟩, hth⟩, heff⟩,
    hdd⟩, hec⟩ := hc
  simp only [recFinite, Bool.and_eq_true]
  refine ⟨⟨⟨⟨⟨⟨⟨⟨⟨⟨?_, ?_⟩, ?_⟩, ?_⟩, ?_⟩, ?_⟩, ?_⟩, ?_⟩, ?_⟩, ?_⟩, ?_⟩
  · rw [processRecord_odometer]; exact hodo
  · rw [processRecord_startSoC]; exact hsoc1
  · rw [processRecord_endSoC]; exact hsoc2
  · rw [processRecord_pricePerKwh]; exact hprice
  · rw [processRecord_energyCharged]; exact henergy
  · rw [processRecord_totalCost]
    unfold costRepair
    split
    · rw [isFinite_round2]; exact isFinite_jmul henergy hprice
    · rw [isFinite_round2]; exact htc
  · rw [processRecord_durationMinutes]
    cases he : c.endTime with
    | none => exact hdur
    | some e => simp [finOpt, JSNum.isFinite]
  · rw [processRecord_theoreticalEnergy]
    split
    · simp only [finOpt]
      exact isFinite_calcTheo hcap hsoc1 hsoc2
    · exact hth
  · rw [processRecord_efficiencyLossPct]
    split
    · simp only [finOpt]
      split
      · next he =>
        rw [isFinite_round2]
        exact isFinite_jmul
          (isFinite_jdiv (isFinite_jsub henergy (isFinite_calcTheo hcap hsoc1 hsoc2))
            henergy (jgt_ne_zero he))
          (by simp [JSNum.isFinite])
      · simp [JSNum.isFinite]
    · exact heff
  · rw [processRecord_distanceDriven]
    cases prev with
    | none => simp [finOpt, JSNum.isFinite]
    | some p =>
      obtain ⟨hpo, _⟩ := hprev p rfl
      simp only [finOpt]
      exact isFinite_jmax0 (isFinite_jsub hodo hpo)
  · rw [processRecord_energyConsumption]
    cases prev with
    | none => simp [finOpt, JSNum.isFinite]
    | some p =>
      obtain ⟨hpo, hps⟩ := hprev p rfl
      simp only [finOpt]
      split
      · next h =>
        rw [isFinite_round2]
        exact isFinite_jmul
          (isFinite_jdiv
            (isFinite_jdiv (isFinite_jmul hcap (isFinite_jsub hps hsoc1))
              (by simp [JSNum.isFinite]) (by simp))
            (isFinite_jmax0 (isFinite_jsub hodo hpo)) (jgt_ne_zero h.1))
          (by simp [JSNum.isFinite])
      · simp [JSNum.isFinite]

theorem recalculate_finite (R : List ChargingRecord) (V : List Vehicle)
    (hV : ∀ v ∈ V, v.batteryCapacity.isFinite = true)
    (hR : ∀ r ∈ R, recFinite r = true) :
    ∀ r ∈ recalculateRecords R V, recFinite r = true := by
  intro r hr
  obtain ⟨c, hcR, q, rfl, hq⟩ := mem_recalculateRecords hr
  apply processRecord_finite _ _ _ (capacityFor_finite hV _) (hR c hcR)
  intro p hp
  rcases hq with h | ⟨y, hy, h⟩
  · rw [h] at hp; cases hp
  · rw [h] at hp
    have hyp : y = p := by injection hp
    subst hyp
    have hfin := hR y hy
    simp only [recFinite, Bool.and_eq_true] at hfin
    exact ⟨hfin.1.1.1.1.1.1.1.1.1.1, hfin.1.1.1.1.1.1.1.1.2⟩

theorem getLast?_of_all_eq {α : Type} {l : List α} {a : α} (hne : l ≠ [])
    (hall : ∀ x ∈ l, x = a) : l.getLast? = some a := by
  cases hl : l.getLast? with
  | none => exact absurd (List.getLast?_eq_none_iff.mp hl) hne
  | some x => rw [hall x (List.mem_of_mem_getLast? hl)]

theorem lookupLast_unique {α : Type} {entries : List (String × α)} {k : String} {v : α}
    (hmem : (k, v) ∈ entries) (huniq : ∀ p ∈ entries, p.1 = k → p = (k, v)) :
    lookupLast entries k = some v := by
  unfold lookupLast
  have hne : entries.filter (fun p => decide (p.1 = k)) ≠ [] := by
    intro h
    have hm : (k, v) ∈ entries.filter (fun p => decide (p.1 = k)) :=
      List.mem_filter.mpr ⟨hmem, by simp⟩
    rw [h] at hm
    exact List.not_mem_nil _ hm
  rw [getLast?_of_all_eq hne (fun x hx => by
    rcases List.mem_filter.mp hx with ⟨hxe, hxk⟩
    exact huniq x hxe (by simpa using hxk))]
  rfl

theorem mergeVehiclesGo_mono (localPairs : List (String × Vehicle)) (fresh : Nat → String) :
    ∀ (cvs : List CloudVehicle) (acc : List Vehicle × List (String × String) × Nat),
    ∃ suffix, (mergeVehiclesGo localPairs fresh acc cvs).1 = acc.1 ++ suffix := by
  intro cvs
  induction cvs with
  | nil =>
    intro acc
    exact ⟨[], (List.append_nil acc.1).symm⟩
  | cons cv rest ih =>
    intro acc
    unfold mergeVehiclesGo
    cases lookupLast localPairs cv.licensePlate with
    | some lv =>
      obtain ⟨suffix, hs⟩ := ih (acc.1 ++ [mergedVehicle cv lv.id],
        acc.2.1 ++ [(cv.licensePlate, lv.id)], acc.2.2)
      exact ⟨[mergedVehicle cv lv.id] ++ suffix, by rw [hs, List.append_assoc]⟩
    | none =>
      obtain ⟨suffix, hs⟩ := ih (acc.1 ++ [mergedVehicle cv (fresh acc.2.2)],
        acc.2.1 ++ [(cv.licensePlate, fresh acc.2.2)], acc.2.2 + 1)
      exact ⟨[mergedVehicle cv (fresh acc.2.2)] ++ suffix, by rw [hs, List.append_assoc]⟩

theorem mergeVehiclesGo_mem {localPairs : List (String × Vehicle)} {fresh : Nat → String}
    {P : String} {lv : Vehicle} (hlook : lookupLast localPairs P = some lv) :
    ∀ (cvs : List CloudVehicle) (acc : List Vehicle × List (String × String) × Nat)
      (cv : CloudVehicle), cv ∈ cvs → cv.licensePlate = P →
    ∃ m ∈ (mergeVehiclesGo localPairs fresh acc cvs).1,
      m.licensePlate = some P ∧ m.id = lv.id := by
  intro cvs
  induction cvs with
  | nil =>
    intro acc cv hcv
    exact absurd hcv (List.not_mem_nil cv)
  | cons c rest ih =>
    intro acc cv hcv hcvp
    rcases List.mem_cons.mp hcv with rfl | hmem
    · subst hcvp
      unfold mergeVehiclesGo
      simp only [hlook]
      obtain ⟨suffix, hs⟩ := mergeVehiclesGo_mono localPairs fresh rest
        (acc.1 ++ [mergedVehicle cv lv.id], acc.2.1 ++ [(cv.licensePlate, lv.id)], acc.2.2)
      refine ⟨mergedVehicle cv lv.id, ?_, ?_, rfl⟩
      · rw [hs]
        simp
      · simp [mergedVehicle]
    · unfold mergeVehiclesGo
      cases lookupLast localPairs c.licensePlate with
      | some lv2 => exact ih _ cv hmem hcvp
      | none => exact ih _ cv hmem hcvp

theorem sync_data_none (config : SupabaseConfig) (st : AppState) (env : RemoteEnv) :
    (syncWithSupabase config st env).1.success = false →
    (syncWithSupabase config st env).1.data = none := by
  unfold syncWithSupabase
  by_cases h1 : config.apiKey = "" ∨ config.projectUrl = ""
  · rw [if_pos h1]; intro; rfl
  · rw [if_neg h1]
    by_cases h2 : 0 < (st.vehicles.filter missingPlate).length
    · rw [if_pos h2]; intro; rfl
    · rw [if_neg h2]
      cases hd : (if 0 < st.deletedRecordIds.length then env.deleteRecordsRes
          else Except.ok ()) with
      | error e => intro; rfl
      | ok u =>
        dsimp only
        cases hu : env.upsertUserRes with
        | error e => intro; rfl
        | ok u2 =>
          dsimp only
          cases hv : env.vehiclesMetaRes with
          | error e => intro; rfl
          | ok vmeta =>
            dsimp only
            cases hvu : (if 0 < (vehiclesToPush vmeta st.vehicles).length
                then env.upsertVehiclesRes else Except.ok ()) with
            | error e => intro; rfl
            | ok u3 =>
              dsimp only
              cases hr : env.recordsMetaRes with
              | error e => intro; rfl
              | ok rmeta =>
                dsimp only
                cases hru : (if 0 < (recordPayload st.vehicles
                      (recordsToPush rmeta st.records)).length
                    then env.upsertRecordsRes else Except.ok ()) with
                | error e => intro; rfl
                | ok u4 =>
                  dsimp only
                  cases hcv : env.cloudVehiclesRes with
                  | error e => intro; rfl
                  | ok cvs =>
                    dsimp only
                    cases hcr : env.cloudRecordsRes with
                    | error e => intro; rfl
                    | ok crs => intro hfalse; cases hfalse

theorem sync_success_data (config : SupabaseConfig) (st : AppState) (env : RemoteEnv)
    (h : (syncWithSupabase config st env).1.success = true) :
    ∃ cvs crs, env.cloudVehiclesRes = Except.ok cvs ∧ env.cloudRecordsRes = Except.ok crs ∧
      (syncWithSupabase config st env).1.data = some
        { vehicles := (mergeVehicles st.vehicles cvs env.fresh).1
          records := recalculateRecords
            (mergeRecords (mergeVehicles st.vehicles cvs env.fresh).2.1 crs)
            (mergeVehicles st.vehicles cvs env.fresh).1
          deletedRecordIds := []
          deletedVehicleIds := [] } := by
  revert h
  unfold syncWithSupabase
  by_cases h1 : config.apiKey = "" ∨ config.projectUrl = ""
  · rw [if_pos h1]; intro h; cases h
  · rw [if_neg h1]
    by_cases h2 : 0 < (st.vehicles.filter missingPlate).length
    · rw [if_pos h2]; intro h; cases h
    · rw [if_neg h2]
      cases hd : (if 0 < st.deletedRecordIds.length then env.deleteRecordsRes
          else Except.ok ()) with
      | error e => intro h; cases h
      | ok u =>
        dsimp only
        cases hu : env.upsertUserRes with
        | error e => intro h; cases h
        | ok u2 =>
          dsimp only
          cases hv : env.vehiclesMetaRes with
          | error e => intro h; cases h
          | ok vmeta =>
            dsimp only
            cases hvu : (if 0 < (vehiclesToPush vmeta st.vehicles).length
                then env.upsertVehiclesRes else Except.ok ()) with
            | error e => intro h; cases h
            | ok u3 =>
              dsimp only
              cases hr : env.recordsMetaRes with
              | error e => intro h; cases h
              | ok rmeta =>
                dsimp only
                cases hru : (if 0 < (recordPayload st.vehicles
                      (recordsToPush rmeta st.records)).length
                    then env.upsertRecordsRes else Except.ok ()) with
                | error e => intro h; cases h
                | ok u4 =>
                  dsimp only
                  cases hcv : env.cloudVehiclesRes with
                  | error e => intro h; cases h
                  | ok cvs =>
                    dsimp only
                    cases hcr : env.cloudRecordsRes with
                    | error e => intro h; cases h
                    | ok crs =>
                      dsimp only
                      intro _
                      exact ⟨cvs, crs, rfl, rfl, rfl⟩

/-- Claim C1: as stated, reconcile is NOT idempotent.  Counterexample:
a record with `totalCost = 0.004`, `energyCharged = 40`,
`pricePerKwh = 1.5`.  The first pass keeps the nonzero cost and rounds
it to `0.00`; the second pass sees `totalCost === 0` and repairs it to
`60.00`, so the derived field `totalCost` differs between
`reconcile(R,V)` and `reconcile(reconcile(R,V),V)`. -/
theorem claim1_counterexample :
    ((recalculateRecords (recalculateRecords [cexRecC1] []) [] =
      recalculateRecords [cexRecC1] []) = False) ∧
    (recalculateRecords [cexRecC1] []).map (fun r => r.totalCost) = [JSNum.fin 0] ∧
    (recalculateRecords (recalculateRecords [cexRecC1] []) []).map
      (fun r => r.totalCost) = [JSNum.fin 60] := by
  have h2 : (recalculateRecords [cexRecC1] []).map (fun r => r.totalCost) = [JSNum.fin 0] := by
    norm_num [recalculateRecords, groupKeys, dedupF, groupOf, capacityFor, sortRecords,
      List.insertionSort, List.orderedInsert, processGroup, processRecord, costRepair,
      round2, round2Q, calculateTheoreticalEnergy, calculateDuration, JSNum.jgt, JSNum.jge,
      JSNum.jmul, JSNum.jsub, JSNum.jdiv, JSNum.jmax0, JSNum.jsTruthy, recLE,
      cexRecC1, baseRec]
    all_goals simp
  have h3 : (recalculateRecords (recalculateRecords [cexRecC1] []) []).map
      (fun r => r.totalCost) = [JSNum.fin 60] := by
    norm_num [recalculateRecords, groupKeys, dedupF, groupOf, capacityFor, sortRecords,
      List.insertionSort, List.orderedInsert, processGroup, processRecord, costRepair,
      round2, round2Q, calculateTheoreticalEnergy, calculateDuration, JSNum.jgt, JSNum.jge,
      JSNum.jmul, JSNum.jsub, JSNum.jdiv, JSNum.jmax0, JSNum.jsTruthy, recLE,
      cexRecC1, baseRec]
    all_goals simp
  refine ⟨eq_false ?_, h2, h3⟩
  intro heq
  have h := congrArg (List.map (fun r : ChargingRecord => r.totalCost)) heq
  rw [h2, h3] at h
  norm_num at h

/-- Claim C1 (amended): reconcile is idempotent for every record list in
which no record has a nonzero, non-`NaN` `totalCost` that rounds to
`0.00` while both `energyCharged > 0` and `pricePerKwh > 0` (such a
record has its cost rounded to `0` by the first pass and then repaired
to `round2(energyCharged * pricePerKwh)` by the second):
`reconcile(reconcile(R,V),V) = reconcile(R,V)` as lists, hence
field-wise on every derived field. -/
theorem claim1_theorem (R : List ChargingRecord) (V : List Vehicle)
    (hok : ∀ r ∈ R, costOK r) :
    recalculateRecords (recalculateRecords R V) V = recalculateRecords R V :=
  recalculateRecords_idem R V hok

/-- Witness for the amended C1 at a concrete input. -/
theorem claim1_witness :
    recalculateRecords (recalculateRecords [baseRec] [vehV1]) [vehV1] =
      recalculateRecords [baseRec] [vehV1] :=
  claim1_theorem [baseRec] [vehV1] (by
    intro r hr
    rw [List.mem_singleton] at hr
    subst hr
    intro _ _ h3
    norm_num [baseRec, round2, round2Q] at h3)

/-- Claim C2: as stated, the cost repair does NOT fire for every
non-finite-positive `totalCost`: a negative total cost (`-5`) with
`energyCharged = 40 > 0` and `pricePerKwh = 1.5 > 0` is kept (rounded)
rather than recomputed to `60.00`, because the source only repairs
`typeof !== 'number' || isNaN || === 0`. -/
theorem claim2_counterexample :
    (recalculateRecords [cexRecC2n] []).map (fun r => r.totalCost) = [JSNum.fin (-5)] ∧
    JSNum.jgt cexRecC2n.energyCharged (JSNum.fin 0) = true ∧
    JSNum.jgt cexRecC2n.pricePerKwh (JSNum.fin 0) = true ∧
    round2 (JSNum.jmul cexRecC2n.energyCharged cexRecC2n.pricePerKwh) = JSNum.fin 60 := by
  refine ⟨?_, ?_, ?_, ?_⟩ <;>
    (norm_num [recalculateRecords, groupKeys, dedupF, groupOf, capacityFor, sortRecords,
      List.insertionSort, List.orderedInsert, processGroup, processRecord, costRepair,
      round2, round2Q, calculateTheoreticalEnergy, calculateDuration, JSNum.jgt, JSNum.jge,
      JSNum.jmul, JSNum.jsub, JSNum.jdiv, JSNum.jmax0, JSNum.jsTruthy, recLE,
      cexRecC2n, baseRec]; all_goals simp)

/-- Claim C2 (amended): every record of the reconcile output comes from
an input record with the same non-derived fields, and its output
`totalCost` is `round2(energyCharged * pricePerKwh)` when the input
`totalCost` is `NaN` or exactly `0` and both factors are positive, and
`round2` of the input `totalCost` otherwise; in particular the input
`(energyCharged 40, pricePerKwh 1.5, totalCost 0)` yields `60.00`. -/
theorem claim2_theorem :
    (∀ (R : List ChargingRecord) (V : List Vehicle) (r : ChargingRecord),
      r ∈ recalculateRecords R V →
      ∃ c ∈ R, recBase c = recBase r ∧ r.totalCost = costRepair c) ∧
    (recalculateRecords [cexRecC2] []).map (fun r => r.totalCost) = [JSNum.fin 60] := by
  constructor
  · intro R V r h
    obtain ⟨c, hc, q, rfl, _⟩ := mem_recalculateRecords h
    exact ⟨c, hc, (recBase_processRecord _ _ _).symm, processRecord_totalCost _ _ _⟩
  · norm_num [recalculateRecords, groupKeys, dedupF, groupOf, capacityFor, sortRecords,
      List.insertionSort, List.orderedInsert, processGroup, processRecord, costRepair,
      round2, round2Q, calculateTheoreticalEnergy, calculateDuration, JSNum.jgt, JSNum.jge,
      JSNum.jmul, JSNum.jsub, JSNum.jdiv, JSNum.jmax0, JSNum.jsTruthy, recLE,
      cexRecC2, baseRec]

/-- Witness for the amended C2 at a concrete input. -/
theorem claim2_witness :
    ∃ c ∈ [cexRecC2],
      recBase c = recBase (processRecord (capacityFor [] "v1") none cexRecC2) ∧
      (processRecord (capacityFor [] "v1") none cexRecC2).totalCost = costRepair c :=
  claim2_theorem.1 [cexRecC2] [] _ (by
    norm_num [recalculateRecords, groupKeys, dedupF, groupOf, sortRecords,
      List.insertionSort, List.orderedInsert, processGroup, cexRecC2, baseRec])

/-- Claim C3: as stated, the output of reconcile can contain `NaN`: an
input record whose `totalCost` is `NaN` while `energyCharged = 0`
(repair guard off) passes its `NaN` through `toFixed`/`parseFloat`
unchanged, so the output `totalCost` is `NaN`, not finite. -/
theorem claim3_counterexample :
    (recalculateRecords [cexRecC3] []).map (fun r => r.totalCost) = [JSNum.nan] ∧
    (recalculateRecords [cexRecC3] []).map (fun r => r.totalCost.isFinite) = [false] := by
  constructor <;>
    (norm_num [recalculateRecords, groupKeys, dedupF, groupOf, capacityFor, sortRecords,
      List.insertionSort, List.orderedInsert, processGroup, processRecord, costRepair,
      round2, round2Q, calculateTheoreticalEnergy, calculateDuration, JSNum.jgt, JSNum.jge,
      JSNum.jmul, JSNum.jsub, JSNum.jdiv, JSNum.jmax0, JSNum.jsTruthy, JSNum.isFinite,
      recLE, cexRecC3, baseRec])

/-- Claim C3 (amended): the engine itself never manufactures `NaN` or
an infinity — the guards prevent every division by zero — so when all
numeric inputs (record fields, stored derived fields and vehicle
capacities) are finite, every numeric field of every output record is
finite. -/
theorem claim3_theorem (R : List ChargingRecord) (V : List Vehicle)
    (hV : ∀ v ∈ V, v.batteryCapacity.isFinite = true)
    (hR : ∀ r ∈ R, recFinite r = true) :
    ∀ r ∈ recalculateRecords R V, recFinite r = true :=
  recalculate_finite R V hV hR

/-- Witness for the amended C3 at a concrete input. -/
theorem claim3_witness :
    recFinite (processRecord (capacityFor [vehV1] "v1") none baseRec) = true :=
  claim3_theorem [baseRec] [vehV1]
    (by
      intro v hv
      rw [List.mem_singleton] at hv
      subst hv
      rfl)
    (by
      intro r hr
      rw [List.mem_singleton] at hr
      subst hr
      rfl)
    _
    (by
      norm_num [recalculateRecords, groupKeys, dedupF, groupOf, sortRecords,
        List.insertionSort, List.orderedInsert, processGroup, baseRec])

/-- Claim C4: as stated, order-invariance fails when two records of the
same vehicle share a `startTime`: the stable sort preserves the input
order of the tie, so the predecessor relation — and hence
`distanceDriven` — changes under permutation, and the two outputs are
not equal as sets. -/
theorem claim4_counterexample :
    ([recB, recA].Perm [recA, recB]) ∧
    (recalculateRecords [recA, recB] [vehV1]).map (fun r => (r.id, r.distanceDriven)) =
      [("a", some (JSNum.fin 0)), ("b", some (JSNum.fin 100))] ∧
    (recalculateRecords [recB, recA] [vehV1]).map (fun r => (r.id, r.distanceDriven)) =
      [("b", some (JSNum.fin 0)), ("a", some (JSNum.fin 0))] ∧
    ((recalculateRecords [recB, recA] [vehV1]).Perm
      (recalculateRecords [recA, recB] [vehV1]) = False) := by
  have h1 : (recalculateRecords [recA, recB] [vehV1]).map
      (fun r => (r.id, r.distanceDriven)) =
      [("a", some (JSNum.fin 0)), ("b", some (JSNum.fin 100))] := by
    norm_num [recalculateRecords, groupKeys, dedupF, groupOf, capacityFor, sortRecords,
      List.insertionSort, List.orderedInsert, processGroup, processRecord, costRepair,
      round2, round2Q, calculateTheoreticalEnergy, calculateDuration, JSNum.jgt, JSNum.jge,
      JSNum.jmul, JSNum.jsub, JSNum.jdiv, JSNum.jmax0, JSNum.jsTruthy, recLE,
      recA, recB, vehV1, baseRec]
  have h2 : (recalculateRecords [recB, recA] [vehV1]).map
      (fun r => (r.id, r.distanceDriven)) =
      [("b", some (JSNum.fin 0)), ("a", some (JSNum.fin 0))] := by
    norm_num [recalculateRecords, groupKeys, dedupF, groupOf, capacityFor, sortRecords,
      List.insertionSort, List.orderedInsert, processGroup, processRecord, costRepair,
      round2, round2Q, calculateTheoreticalEnergy, calculateDuration, JSNum.jgt, JSNum.jge,
      JSNum.jmul, JSNum.jsub, JSNum.jdiv, JSNum.jmax0, JSNum.jsTruthy, recLE,
      recA, recB, vehV1, baseRec]
  refine ⟨List.Perm.swap recA recB [], h1, h2, eq_false ?_⟩
  intro hperm
  have hm := (hperm.map (fun r => (r.id, r.distanceDriven))).mem_iff
    (a := ("b", some (JSNum.fin 100)))
  rw [h1, h2] at hm
  have : (("b", some (JSNum.fin 100)) : String × Option JSNum) ∈
      [(("b" : String), some (JSNum.fin 0)), ("a", some (JSNum.fin 0))] := by
    rw [hm]
    simp
  norm_num at this

/-- Claim C4 (amended): order-invariance holds whenever no two records
of the same vehicle share a `startTime`: for any permutation `R'` of
`R`, `reconcile(R', V)` is a permutation of `reconcile(R, V)` (equal
as multisets, hence as sets of records). -/
theorem claim4_theorem (R R2 : List ChargingRecord) (V : List Vehicle)
    (hp : R2.Perm R) (hnd : ∀ k, ((groupOf R k).map (·.startTime)).Nodup) :
    (recalculateRecords R2 V).Perm (recalculateRecords R V) :=
  recalculate_perm R R2 V hp hnd

/-- Witness for the amended C4 at a concrete input. -/
theorem claim4_witness :
    (recalculateRecords [recBt1, recA] [vehV1]).Perm
      (recalculateRecords [recA, recBt1] [vehV1]) :=
  claim4_theorem [recA, recBt1] [recBt1, recA] [vehV1] (List.Perm.swap recA recBt1 [])
    (by
      intro k
      by_cases hk : ("v1" : String) = k <;>
        simp [groupOf, recA, recBt1, baseRec, hk])

/-- Claim C5: the frame condition holds — the output of reconcile has
exactly as many records as the input, and the multiset of non-derived
projections (id, vehicleId, odometer, startTime, endTime, startSoC,
endSoC, pricePerKwh, type, energyCharged, temperature, location,
createdAt, updatedAt) of the output is a permutation of that of the
input: every input record appears in the output with all non-derived
fields intact. -/
theorem claim5_theorem (R : List ChargingRecord) (V : List Vehicle) :
    (recalculateRecords R V).length = R.length ∧
    ((recalculateRecords R V).map recBase).Perm (R.map recBase) := by
  have hb := recalculate_base_perm R V
  refine ⟨?_, hb⟩
  have h := hb.length_eq
  simpa using h

/-- Claim C9: in every vehicle group of the reconcile output (the
output records of one `vehicleId`, which the engine emits in ascending
`startTime` order), the chronologically first record has
`distanceDriven = 0` and `energyConsumption = 0`. -/
theorem claim9_theorem (R : List ChargingRecord) (V : List Vehicle) (k : String)
    (r : ChargingRecord)
    (h : (groupOf (recalculateRecords R V) k).head? = some r) :
    r.distanceDriven = some (JSNum.fin 0) ∧ r.energyConsumption = some (JSNum.fin 0) := by
  rw [groupOf_recalculate] at h
  by_cases hk : k ∈ groupKeys R
  · rw [if_pos hk] at h
    cases hsort : sortRecords (groupOf R k) with
    | nil =>
      rw [hsort] at h
      simp [processGroup] at h
    | cons a t =>
      rw [hsort] at h
      simp only [processGroup, List.head?_cons, Option.some.injEq] at h
      subst h
      rw [processRecord_distanceDriven, processRecord_energyConsumption]
      exact ⟨rfl, rfl⟩
  · rw [if_neg hk] at h
    simp at h

/-- Witness for C9 at a concrete input. -/
theorem claim9_witness :
    (processRecord (capacityFor [vehV1] "v1") none baseRec).distanceDriven =
      some (JSNum.fin 0) ∧
    (processRecord (capacityFor [vehV1] "v1") none baseRec).energyConsumption =
      some (JSNum.fin 0) :=
  claim9_theorem [baseRec] [vehV1] "v1" _ (by
    norm_num [recalculateRecords, groupKeys, dedupF, groupOf, sortRecords,
      List.insertionSort, List.orderedInsert, processGroup, baseRec])

/-- Claim C10 (implicit): a record without `endTime` keeps its input
`durationMinutes` verbatim — every output record of reconcile comes
from an input record with the same non-derived fields, and if that
input record has no `endTime` the output `durationMinutes` equals the
input's, stale or missing as it may be. -/
theorem claim10_theorem (R : List ChargingRecord) (V : List Vehicle) (r : ChargingRecord)
    (h : r ∈ recalculateRecords R V) :
    ∃ c ∈ R, recBase c = recBase r ∧
      (c.endTime = none → r.durationMinutes = c.durationMinutes) := by
  obtain ⟨c, hc, q, rfl, _⟩ := mem_recalculateRecords h
  refine ⟨c, hc, (recBase_processRecord _ _ _).symm, fun hnone => ?_⟩
  rw [processRecord_durationMinutes, hnone]

/-- Witness for C10 at a concrete input. -/
theorem claim10_witness :
    ∃ c ∈ [baseRec],
      recBase c = recBase (processRecord (capacityFor [] "v1") none baseRec) ∧
      (c.endTime = none → (processRecord (capacityFor [] "v1") none baseRec).durationMinutes =
        c.durationMinutes) :=
  claim10_theorem [baseRec] [] _ (by
    norm_num [recalculateRecords, groupKeys, dedupF, groupOf, sortRecords,
      List.insertionSort, List.orderedInsert, processGroup, baseRec])

theorem sync_missing_plate (config : SupabaseConfig) (st : AppState) (env : RemoteEnv)
    (hcfg : ¬(config.apiKey = "" ∨ config.projectUrl = ""))
    (hbad : 0 < (st.vehicles.filter missingPlate).length) :
    syncWithSupabase config st env =
      (syncFailure ("同步失败：存在 " ++ toString (st.vehicles.filter missingPlate).length ++
        " 辆车未填写车牌号码。云端同步需要车牌作为唯一识别。"), []) := by
  unfold syncWithSupabase
  rw [if_neg hcfg]
  dsimp only
  rw [if_pos hbad]

/-- Claim C6: as stated, the failure does NOT name the offending
vehicles: two local states whose only difference is the name of the
plate-less vehicle (`"AA"` vs `"BB"`) produce the very same result, so
no vehicle name can appear in it; the failure only reports the count.
The fail-fast and zero-remote-call parts do hold (the trace is empty). -/
theorem claim6_counterexample :
    syncWithSupabase cfgOk stNoPlateA envOk = syncWithSupabase cfgOk stNoPlateB envOk ∧
    (syncWithSupabase cfgOk stNoPlateA envOk).1.success = false ∧
    (syncWithSupabase cfgOk stNoPlateA envOk).2 = [] ∧
    stNoPlateA.vehicles.map (·.name) = ["AA"] ∧
    stNoPlateB.vehicles.map (·.name) = ["BB"] :=
  ⟨rfl, rfl, rfl, rfl, rfl⟩

/-- Claim C6 (amended): with a valid config, a sync on a state with any
vehicle whose license plate is missing or blank fails before any
remote-store call: the result is the identity-key failure message
reporting the count of offending vehicles, the trace of remote
invocations is empty, and no state fragment is returned. -/
theorem claim6_theorem (config : SupabaseConfig) (st : AppState) (env : RemoteEnv)
    (hcfg : ¬(config.apiKey = "" ∨ config.projectUrl = ""))
    (hbad : 0 < (st.vehicles.filter missingPlate).length) :
    (syncWithSupabase config st env).1.success = false ∧
    (syncWithSupabase config st env).1.data = none ∧
    (syncWithSupabase config st env).2 = [] ∧
    (syncWithSupabase config st env).1.message =
      "同步失败：存在 " ++ toString (st.vehicles.filter missingPlate).length ++
        " 辆车未填写车牌号码。云端同步需要车牌作为唯一识别。" := by
  rw [sync_missing_plate config st env hcfg hbad]
  exact ⟨rfl, rfl, rfl, rfl⟩

/-- Witness for the amended C6 at a concrete input. -/
theorem claim6_witness :
    (syncWithSupabase cfgOk stNoPlateA envOk).1.success = false ∧
    (syncWithSupabase cfgOk stNoPlateA envOk).1.data = none ∧
    (syncWithSupabase cfgOk stNoPlateA envOk).2 = [] ∧
    (syncWithSupabase cfgOk stNoPlateA envOk).1.message =
      "同步失败：存在 " ++ toString (stNoPlateA.vehicles.filter missingPlate).length ++
        " 辆车未填写车牌号码。云端同步需要车牌作为唯一识别。" :=
  claim6_theorem cfgOk stNoPlateA envOk
    (by simp [cfgOk])
    (by rw [show (stNoPlateA.vehicles.filter missingPlate).length = 1 from rfl]; norm_num)

/-- Claim C7: merge identity stability — when the local state has a
(unique-plate) vehicle with plate `P` and id `X` and the pulled remote
set contains a row with plate `P`, a successful sync returns a merged
vehicle list containing a vehicle with plate `P` whose id is exactly
`X`: the existing local id is reused, not freshly minted. -/
theorem claim7_theorem (config : SupabaseConfig) (st : AppState) (env : RemoteEnv)
    (cvs : List CloudVehicle) (P : String) (v : Vehicle) (cv : CloudVehicle)
    (hv : v ∈ st.vehicles) (hvp : v.licensePlate = some P)
    (huniq : ∀ w ∈ st.vehicles, w.licensePlate.getD "" = P → w = v)
    (henv : env.cloudVehiclesRes = Except.ok cvs) (hcv : cv ∈ cvs)
    (hcvp : cv.licensePlate = P)
    (hsucc : (syncWithSupabase config st env).1.success = true) :
    ∃ d, (syncWithSupabase config st env).1.data = some d ∧
      ∃ m ∈ d.vehicles, m.licensePlate = some P ∧ m.id = v.id := by
  obtain ⟨cvs2, crs, hcv2, _, hdata⟩ := sync_success_data config st env hsucc
  rw [henv] at hcv2
  have hcvs : cvs2 = cvs := by
    injection hcv2 with h
    exact h.symm
  rw [hcvs] at hdata
  refine ⟨_, hdata, ?_⟩
  have hlook : lookupLast (st.vehicles.map (fun w => (w.licensePlate.getD "", w))) P =
      some v := by
    apply lookupLast_unique
    · exact List.mem_map.mpr ⟨v, hv, by rw [hvp]; rfl⟩
    · rintro ⟨pp, w⟩ hpw hp1
      obtain ⟨w2, hw2, heq⟩ := List.mem_map.mp hpw
      obtain ⟨h1, h2⟩ : w2.licensePlate.getD "" = pp ∧ w2 = w := by
        injection heq with a b
        exact ⟨a, b⟩
      subst h2
      have hp : w2.licensePlate.getD "" = P := by rw [h1]; exact hp1
      have hwv := huniq w2 hw2 hp
      subst hwv
      rw [← h1, hvp]
      rfl
  exact mergeVehiclesGo_mem hlook cvs ([], [], 0) cv hcv hcvp

/-- Witness for C7 at a concrete input. -/
theorem claim7_witness :
    ∃ d, (syncWithSupabase cfgOk stPlated envCloud).1.data = some d ∧
      ∃ m ∈ d.vehicles, m.licensePlate = some "ABC123" ∧ m.id = vehV1.id :=
  claim7_theorem cfgOk stPlated envCloud [cloudV1] "ABC123" vehV1 cloudV1
    (by simp [stPlated])
    rfl
    (by
      intro w hw _
      simp only [stPlated, List.mem_singleton] at hw
      exact hw)
    rfl
    (by simp)
    rfl
    rfl

/-- Claim C8: deletion-queue atomicity — a failed sync returns no state
fragment at all (`data = none`, so the caller's `deletedRecordIds` is
untouched), while a successful sync returns a fragment whose
`deletedRecordIds` and `deletedVehicleIds` are both empty. -/
theorem claim8_theorem (config : SupabaseConfig) (st : AppState) (env : RemoteEnv) :
    ((syncWithSupabase config st env).1.success = false →
      (syncWithSupabase config st env).1.data = none) ∧
    ((syncWithSupabase config st env).1.success = true →
      ∃ d, (syncWithSupabase config st env).1.data = some d ∧
        d.deletedRecordIds = [] ∧ d.deletedVehicleIds = []) := by
  refine ⟨sync_data_none config st env, fun h => ?_⟩
  obtain ⟨cvs, crs, _, _, hdata⟩ := sync_success_data config st env h
  exact ⟨_, hdata, rfl, rfl⟩

/-- Witness for C8: both directions at concrete inputs — a failing sync
(missing plate) carries no fragment, and a succeeding sync carries a
fragment with both deletion queues empty. -/
theorem claim8_witness :
    (syncWithSupabase cfgOk stNoPlateA envOk).1.data = none ∧
    ∃ d, (syncWithSupabase cfgOk stPlated envCloud).1.data = some d ∧
      d.deletedRecordIds = [] ∧ d.deletedVehicleIds = [] :=
  ⟨(claim8_theorem cfgOk stNoPlateA envOk).1 rfl,
   (claim8_theorem cfgOk stPlated envCloud).2 rfl⟩
